import Mathlib

/-!
# script.js: a shallow embedding

The page script is embedded as state-passing functions over a `World`: the
script's global variables, the local variables captured by its closures, the
part of the document it reads and writes, and the browser's timer table.
Objects the script only receives from the browser (the wall clock's rendering,
the random source, functions handed in as countdown callbacks, the elements a
selector matches) are parameters. The countdown's `timeLeft` and the product
`Math.random() * 6` follow IEEE double arithmetic: integers are kept as `Int`,
a draw as a quotient by a power of two, and each step rounds to the nearest
double. The delay product is taken over exact integers. What the browser does
to markup written through `innerHTML` is modelled on the fragment of HTML the
log uses and left to a parameter elsewhere.
-/

namespace Script

/-! ## Browser and script state -/

/-- A function value passed as the `callback` argument of `createCountdownTimer`:
the arrow function of lines 221-223, or a function supplied from outside the
script, named by a handle into `Env.callbacks`. -/
inductive Callback where
  | demoComplete
  | external (handle : Nat)
deriving DecidableEq, Repr

/-- The arrow functions the script hands to `setTimeout` / `setInterval`, with
the variables each one captures. `scope` names the activation of the enclosing
function whose mutable local (`isAnimating`, `timeLeft`) the closure shares. -/
inductive Task where
  /-- lines 60-63: captures `element`, `animationClass`, `isAnimating` -/
  | animationEnd (scope : Nat) (element animationClass : String)
  /-- lines 120-123 -/
  | modalReveal
  /-- lines 130-133 -/
  | modalHidden
  /-- lines 196-209: captures `timeLeft`, `timer`, `callback` -/
  | countdownTick (scope : Nat) (timer : Nat) (callback : Option Callback)
  /-- lines 220-224 -/
  | demoCountdown
deriving DecidableEq, Repr

/-- One entry of the browser's timer table. `period` is `none` for a timeout
and the repetition period for an interval. -/
structure Timer where
  id : Nat
  due : Nat
  period : Option Nat
  task : Task
deriving DecidableEq, Repr

/-- The function returned by `createAnimationHandler`: its captured parameters
and the scope holding its `isAnimating`. -/
structure AnimationHandler where
  scope : Nat
  elementId : String
  animationClass : String
deriving DecidableEq, Repr

/-- Everything the script can read or write. Elements are named by the string
the script finds them with; every lookup finds its element (the page provides
them); `innerHTML` holds what reading the property returns. -/
structure World where
  /-- milliseconds since the page was opened -/
  now : Nat
  timers : List Timer
  nextTimer : Nat
  nextScope : Nat
  console : List String
  classList : String → List String
  style : String → String → String
  textContent : String → String
  innerHTML : String → String
  /-- elements carrying the mouseenter / mouseleave listeners of lines 176-183 -/
  hoverListeners : List String
  /-- line 4; every increment also appends a line to the results area, whose
  size keeps the counter far inside the range where doubles count exactly -/
  animationCount : Nat
  /-- line 101 -/
  isCardFlipped : Bool
  /-- line 147 -/
  isLoaderActive : Bool
  /-- line 81 -/
  boxAnimationHandler : AnimationHandler
  /-- line 49, one per call of `createAnimationHandler` -/
  isAnimating : Nat → Bool
  /-- line 194, one per call of `createCountdownTimer` -/
  timeLeft : Nat → Int
  /-- Ghost history, never read by the script: the `(message, type)` of every
  call of `updateResults`, oldest first. -/
  calls : List (String × String)

/-- A value of `Math.random()`: a double in `[0, 1)`, written
`mantissa / 2 ^ exponent`. Every such double has this form and every such
quotient is a double. -/
structure Draw where
  mantissa : Nat
  exponent : Nat
  mantissa_lt : mantissa < 2 ^ 53
  exponent_le : exponent ≤ 1074
  lt_one : mantissa < 2 ^ exponent

/-- The number a draw stands for. -/
def Draw.val (r : Draw) : ℚ := (r.mantissa : ℚ) / 2 ^ r.exponent

/-- What the browser and the page supply. -/
structure Env where
  /-- `new Date().toLocaleTimeString()` at a given instant -/
  toLocaleTimeString : Nat → String
  /-- functions passed in from outside as countdown callbacks -/
  callbacks : Nat → World → World
  /-- the elements matching `.animated-box, .card, .modal-content` -/
  hoverElements : List String
  /-- what reading `innerHTML` returns after it was set to a string, for markup
  outside the fragment `scan` covers -/
  reserialize : String → String
  /-- `String.prototype.toUpperCase` on strings that are not pure ASCII -/
  toUpperCase : String → String
  /-- `Number.prototype.toString` on integers beyond `2 ^ 53` in size -/
  numberToString : Int → String

/-- line 5 -/
def maxAnimations : Nat := 5

/-! ## DOM and timer primitives -/

/-- `String.prototype.toUpperCase`: on ASCII text the letters `a` to `z` become
`A` to `Z`; other text is left to the browser. -/
def toUpperCase (env : Env) (s : String) : String :=
  if s.data.all (fun c => c.toNat < 128) then String.mk (s.data.map Char.toUpper)
  else env.toUpperCase s

/-- `Number.prototype.toString` on an integer-valued number: the decimal digits
up to `2 ^ 53` in size, left to the browser beyond. -/
def numberToString (env : Env) (x : Int) : String :=
  if x.natAbs ≤ 2 ^ 53 then toString x else env.numberToString x

/-- Round a natural number to 53 significant bits, to nearest, ties to even:
the significand rounding of IEEE double arithmetic. -/
def roundMantissa (n : Nat) : Nat :=
  let s := Nat.size n - 53
  if s = 0 then n
  else
    let q := n / 2 ^ s
    let r := n % 2 ^ s
    (if 2 ^ (s - 1) < r ∨ (r = 2 ^ (s - 1) ∧ q % 2 = 1) then q + 1 else q) * 2 ^ s

/-- The double nearest to an integer (of size below `2 ^ 1024`). -/
def roundToDouble (x : Int) : Int := x.sign * (roundMantissa x.natAbs : Nat)

/-! ## Markup written through `innerHTML`

Setting `innerHTML` parses the string as an HTML fragment and reading it back
serialises the resulting nodes. `scan` follows the tokenizer of the HTML
standard through the states that text, `<div>`, `</div>`, `<br>` and the
references `&amp;`, `&lt;`, `&gt;`, `&nbsp;` reach, and emits the serialisation
of each token; on anything else it gives `none`. -/

/-- States of the HTML tokenizer. -/
inductive ScanState where
  | data
  | tagOpen
  | endTagOpen
  | tagName (closing : Bool) (name : List Char)
  | charRef
  | namedRef (name : List Char)
deriving DecidableEq, Repr

/-- The serialisation of one character of a text node. -/
def escapeChar (c : Char) : List Char :=
  if c = '&' then "&amp;".data
  else if c = '<' then "&lt;".data
  else if c = '>' then "&gt;".data
  else if c = Char.ofNat 160 then "&nbsp;".data
  else [c]

/-- One character met in the data state; `next` continues after it. A carriage
return or NUL is outside the fragment. -/
def dataChar (c : Char) (next : ScanState → Option (List Char)) : Option (List Char) :=
  if c = '<' then next ScanState.tagOpen
  else if c = '&' then next ScanState.charRef
  else if c = Char.ofNat 13 ∨ c = Char.ofNat 0 then none
  else (next ScanState.data).map (fun out => escapeChar c ++ out)

/-- Tokenize markup from a state at a nesting depth of open `div`s and give the
serialisation of the nodes it builds, or `none` outside the fragment. -/
def scan : List Char → ScanState → Nat → Option (List Char)
  | [], ScanState.data, depth => if depth = 0 then some [] else none
  | [], ScanState.tagOpen, depth => if depth = 0 then some "&lt;".data else none
  | [], ScanState.charRef, depth => if depth = 0 then some "&amp;".data else none
  | [], _, _ => none
  | c :: cs, ScanState.data, depth => dataChar c (fun st => scan cs st depth)
  | c :: cs, ScanState.tagOpen, depth =>
      if c.isAlpha then scan cs (ScanState.tagName false [c]) depth
      else if c = '/' then scan cs ScanState.endTagOpen depth
      else if c = '!' ∨ c = '?' then none
      else (dataChar c (fun st => scan cs st depth)).map (fun out => "&lt;".data ++ out)
  | c :: cs, ScanState.endTagOpen, depth =>
      if c.isAlpha then scan cs (ScanState.tagName true [c]) depth else none
  | c :: cs, ScanState.tagName closing name, depth =>
      if c = '>' then
        if closing = false ∧ name = "div".data then
          (scan cs ScanState.data (depth + 1)).map (fun out => "<div>".data ++ out)
        else if closing = true ∧ name = "div".data ∧ 0 < depth then
          (scan cs ScanState.data (depth - 1)).map (fun out => "</div>".data ++ out)
        else if closing = false ∧ name = "br".data then
          (scan cs ScanState.data depth).map (fun out => "<br>".data ++ out)
        else none
      else if c.isAlpha then scan cs (ScanState.tagName closing (name ++ [c])) depth
      else none
  | c :: cs, ScanState.charRef, depth =>
      if c.isAlphanum then scan cs (ScanState.namedRef [c]) depth
      else if c = '#' then none
      else (dataChar c (fun st => scan cs st depth)).map (fun out => "&amp;".data ++ out)
  | c :: cs, ScanState.namedRef name, depth =>
      if c = ';' then
        if name = "amp".data then
          (scan cs ScanState.data depth).map (fun out => "&amp;".data ++ out)
        else if name = "lt".data then
          (scan cs ScanState.data depth).map (fun out => "&lt;".data ++ out)
        else if name = "gt".data then
          (scan cs ScanState.data depth).map (fun out => "&gt;".data ++ out)
        else if name = "nbsp".data then
          (scan cs ScanState.data depth).map (fun out => "&nbsp;".data ++ out)
        else none
      else if c.isAlphanum then scan cs (ScanState.namedRef (name ++ [c])) depth
      else none

/-- What reading `innerHTML` returns after it was set to `markup`. -/
def reserialize (env : Env) (markup : String) : String :=
  match scan markup.data ScanState.data 0 with
  | some out => String.mk out
  | none => env.reserialize markup

/-- `classList.add(token)` on a token list. -/
def classListAdd (l : List String) (token : String) : List String :=
  if token ∈ l then l else l ++ [token]

/-- `classList.remove(token)` on a token list. -/
def classListRemove (l : List String) (token : String) : List String :=
  l.filter (fun c => c ≠ token)

/-- `xs[i]` for a number `i`: `none` stands for `undefined`. -/
def jsIndex (xs : List String) (i : Int) : Option String :=
  if i < 0 then none else xs[i.toNat]?

/-- `setTimeout(task, delay)`: returns the new timer's id. -/
def setTimeout (task : Task) (delay : Int) (w : World) : Nat × World :=
  (w.nextTimer,
   { w with timers := w.timers ++ [⟨w.nextTimer, w.now + delay.toNat, none, task⟩],
            nextTimer := w.nextTimer + 1 })

/-- `setInterval(task, delay)`: returns the new timer's id. -/
def setInterval (task : Nat → Task) (delay : Int) (w : World) : Nat × World :=
  (w.nextTimer,
   { w with timers := w.timers ++
              [⟨w.nextTimer, w.now + delay.toNat, some delay.toNat, task w.nextTimer⟩],
            nextTimer := w.nextTimer + 1 })

/-- `clearInterval(id)`. -/
def clearInterval (id : Nat) (w : World) : World :=
  { w with timers := w.timers.filter (fun t => t.id ≠ id) }

/-- `element.classList.add(token)`. -/
def World.addClass (w : World) (element token : String) : World :=
  { w with classList :=
      Function.update w.classList element (classListAdd (w.classList element) token) }

/-- `element.classList.remove(token)`. -/
def World.removeClass (w : World) (element token : String) : World :=
  { w with classList :=
      Function.update w.classList element (classListRemove (w.classList element) token) }

/-- `element.style[property] = value`. -/
def World.setStyle (w : World) (element property value : String) : World :=
  { w with style :=
      Function.update w.style element (Function.update (w.style element) property value) }

/-- `element.textContent = value`. -/
def World.setTextContent (w : World) (element value : String) : World :=
  { w with textContent := Function.update w.textContent element value }

/-! ## Part 2 of the script: functions -/

/-- lines 8-12, over exact integers; `multiplier = none` is the omitted argument. -/
def calculateDelay (baseDelay : Int) (multiplier : Option Int) (w : World) : Int × World :=
  let delay := baseDelay * multiplier.getD 1
  (delay, { w with console := w.console ++ [s!"Calculated delay: {delay}ms"] })

/-- line 16 -/
def colors : List String :=
  ["#ff6b6b", "#4ecdc4", "#45b7d1", "#96ceb4", "#feca57", "#ff9ff3"]

/-- The object returned by `generateRandomColor`. -/
structure ColorData where
  color : Option String
  index : Int
  timestamp : String

/-- The double product `r * n` of a draw and a small natural number, as a
numerator over `2 ^ r.exponent`. -/
def Draw.times (r : Draw) (n : Nat) : Nat := roundMantissa (r.mantissa * n)

/-- lines 15-27; `r` is the value `Math.random()` returns. -/
def generateRandomColor (env : Env) (r : Draw) (w : World) : ColorData :=
  let randomIndex : Int := ((r.times colors.length / 2 ^ r.exponent : Nat) : Int)
  let selectedColor := jsIndex colors randomIndex
  { color := selectedColor, index := randomIndex,
    timestamp := env.toLocaleTimeString w.now }

/-- The text `formattedMessage` of line 35. -/
def formatMessage (env : Env) (timestamp type message : String) : String :=
  let tag := toUpperCase env type
  s!"[{timestamp}] {tag}: {message}"

/-- lines 30-44; `type = none` is the omitted argument. -/
def updateResults (env : Env) (message : String) (type : Option String) (w : World) :
    String × World :=
  let type := type.getD "info"
  let timestamp := env.toLocaleTimeString w.now
  let formattedMessage := formatMessage env timestamp type message
  let animationCount := w.animationCount + 1
  let html1 := reserialize env (w.innerHTML "results" ++ s!"<div>{formattedMessage}</div>")
  let html2 :=
    reserialize env (html1 ++ s!"<div>Total animations: {animationCount}</div><br>")
  (formattedMessage,
   { w with animationCount := animationCount,
            innerHTML := Function.update w.innerHTML "results" html2,
            calls := w.calls ++ [(message, type)] })

/-- lines 47-50 and 66: the call of `createAnimationHandler` itself. -/
def createAnimationHandler (elementId animationClass : String) (w : World) :
    AnimationHandler × World :=
  (⟨w.nextScope, elementId, animationClass⟩,
   { w with isAnimating := Function.update w.isAnimating w.nextScope false,
            nextScope := w.nextScope + 1 })

/-- lines 51-66: a call of the function `createAnimationHandler` returned. -/
def AnimationHandler.call (h : AnimationHandler) (w : World) : Bool × World :=
  if w.isAnimating h.scope then (false, w)
  else
    let w1 := { w with isAnimating := Function.update w.isAnimating h.scope true }
    let w2 := w1.addClass h.elementId h.animationClass
    let (delay, w3) := calculateDelay 500 (some 1) w2
    let (_, w4) := setTimeout (Task.animationEnd h.scope h.elementId h.animationClass) delay w3
    (true, w4)

/-! ## Part 3 of the script: event handlers -/

/-- lines 86-98 -/
def animateBoxClick (env : Env) (r : Draw) (w : World) : World :=
  let (success, w1) := w.boxAnimationHandler.call w
  let colorData := generateRandomColor env r w1
  let color := colorData.color.getD "undefined"
  if success then
    let w2 := w1.setStyle "animatedBox" "background" color
    (updateResults env s!"Box animated with color {color}" (some "animation") w2).2
  else
    (updateResults env "Animation already in progress" (some "warning") w1).2

/-- The element `document.getElementById('flipCardContainer').querySelector('.card')`. -/
def card : String := "flipCardContainer .card"

/-- lines 102-114 -/
def flipCardClick (env : Env) (w : World) : World :=
  let w1 :=
    if w.isCardFlipped then
      let w0 := w.removeClass card "flipped"
      (updateResults env "Card flipped to front" (some "flip") w0).2
    else
      let w0 := w.addClass card "flipped"
      (updateResults env "Card flipped to back" (some "flip") w0).2
  { w1 with isCardFlipped := !w1.isCardFlipped }

/-- lines 117-124 -/
def showModal (w : World) : World :=
  let w1 := w.setStyle "modal" "display" "flex"
  (setTimeout Task.modalReveal 10 w1).2

/-- lines 126-134 -/
def hideModal (w : World) : World :=
  let w1 := w.removeClass "modal" "show"
  let (delay, w2) := calculateDelay 300 (some 1) w1
  (setTimeout Task.modalHidden delay w2).2

/-- lines 140-144; `target` is `e.target`. -/
def modalClick (target : String) (w : World) : World :=
  if target = "modal" then hideModal w else w

/-- lines 149-164 -/
def toggleLoader (env : Env) (w : World) : Bool × World :=
  let w1 :=
    if w.isLoaderActive then
      let w0 := w.addClass "loader" "hidden"
      let w0 := w0.setTextContent "startLoader" "Start Loader"
      (updateResults env "Loader stopped" (some "loader") w0).2
    else
      let w0 := w.removeClass "loader" "hidden"
      let w0 := w0.setTextContent "startLoader" "Stop Loader"
      (updateResults env "Loader started" (some "loader") w0).2
  let w2 := { w1 with isLoaderActive := !w1.isLoaderActive }
  (w2.isLoaderActive, w2)

/-- lines 176-179: the mouseenter listener, `element` being `this`. -/
def hoverEnter (env : Env) (element : String) (r : Draw) (w : World) : World :=
  let colorData := generateRandomColor env r w
  let color := colorData.color.getD "undefined"
  w.setStyle element "boxShadow" s!"0 5px 15px {color}"

/-- lines 181-183: the mouseleave listener. -/
def hoverLeave (element : String) (w : World) : World :=
  w.setStyle element "boxShadow" ""

/-- lines 169-190 -/
def initializeInteractiveElements (env : Env) (w : World) : Nat × World :=
  let elements := env.hoverElements
  let (initCount, w1) := elements.foldl
    (fun (acc : Nat × World) element =>
      (acc.1 + 1, { acc.2 with hoverListeners := acc.2.hoverListeners ++ [element] }))
    (0, w)
  (initCount,
   (updateResults env s!"Initialized {initCount} interactive elements" (some "init") w1).2)

/-- lines 193-212: the call itself; `duration = none` and `callback = none` are
the omitted arguments (a `callback` that is not a function behaves as `none`).
`duration` is the value of the number passed, an integer-valued double. -/
def createCountdownTimer (duration : Option Int) (callback : Option Callback) (w : World) :
    Nat × World :=
  let scope := w.nextScope
  let w1 := { w with timeLeft := Function.update w.timeLeft scope (duration.getD 5),
                     nextScope := w.nextScope + 1 }
  setInterval (fun timer => Task.countdownTick scope timer callback) 1000 w1

/-- A call `callback()` of a countdown callback. -/
def Callback.call (env : Env) : Callback → World → World
  | Callback.demoComplete, w =>
      (updateResults env "Demo initialization complete!" (some "success") w).2
  | Callback.external k, w => env.callbacks k w

/-- lines 205-207: `callback` is called if it is a function. -/
def callIfFunction (env : Env) (callback : Option Callback) (w : World) : World :=
  match callback with
  | some c => c.call env w
  | none => w

/-- lines 196-209: one run of the interval's arrow function. -/
def countdownTick (env : Env) (scope timer : Nat) (callback : Option Callback) (w : World) :
    World :=
  let n := numberToString env (w.timeLeft scope)
  let w1 := (updateResults env s!"Countdown: {n} seconds" (some "timer") w).2
  let timeLeft := roundToDouble (w1.timeLeft scope - 1)
  let w2 := { w1 with timeLeft := Function.update w1.timeLeft scope timeLeft }
  if w2.timeLeft scope < 0 then
    let w3 := clearInterval timer w2
    let w4 := (updateResults env "Countdown finished!" (some "timer") w3).2
    callIfFunction env callback w4
  else w2

/-- The body of each arrow function handed to a timer. -/
def runTask (env : Env) : Task → World → World
  | Task.animationEnd scope element animationClass, w =>
      let w1 := w.removeClass element animationClass
      { w1 with isAnimating := Function.update w1.isAnimating scope false }
  | Task.modalReveal, w =>
      let w1 := w.addClass "modal" "show"
      (updateResults env "Modal opened with slide animation" (some "modal") w1).2
  | Task.modalHidden, w =>
      let w1 := w.setStyle "modal" "display" "none"
      (updateResults env "Modal closed" (some "modal") w1).2
  | Task.countdownTick scope timer callback, w => countdownTick env scope timer callback w
  | Task.demoCountdown, w =>
      (createCountdownTimer (some 3) (some Callback.demoComplete) w).2

/-- lines 215-229: the DOMContentLoaded listener. -/
def domContentLoaded (env : Env) (w : World) : World :=
  let (_, w1) := initializeInteractiveElements env w
  let (_, w2) := setTimeout Task.demoCountdown 1000 w1
  let (_, w3) := updateResults env "JavaScript functions loaded successfully" (some "init") w2
  (updateResults env s!"Global animation limit set to: {maxAnimations}" (some "config") w3).2

/-- The top-level statements of the script (lines 4, 81, 101, 147), run once on
the page as the browser built it. -/
def loadScript (page : World) : World :=
  let w := { page with animationCount := 0, calls := [] }
  let (handler, w) := createAnimationHandler "animatedBox" "animate" w
  { w with boxAnimationHandler := handler, isCardFlipped := false, isLoaderActive := false }

/-! ## The event loop -/

/-- The browser runs timer `id`: a timeout leaves the table, an interval is
re-armed one period later, and the task's body runs at the timer's due time (or
now, if that has passed). A timer that is not in the table does nothing. -/
def fireTimer (env : Env) (id : Nat) (w : World) : World :=
  match w.timers.find? (fun t => t.id = id) with
  | none => w
  | some t =>
    let now := max w.now t.due
    let timers := match t.period with
      | none => w.timers.filter (fun u => u.id ≠ id)
      | some p => w.timers.map (fun u => if u.id = id then { u with due := now + p } else u)
    runTask env t.task { w with now := now, timers := timers }

/-- The timer the browser runs next: the earliest due, the older one on a tie. -/
def earliest : List Timer → Option Timer
  | [] => none
  | t :: ts =>
    match earliest ts with
    | none => some t
    | some u => if u.due < t.due then some u else some t

/-- Run timers in due order until none is left or `fuel` runs out. -/
def runTimers (env : Env) : Nat → World → World
  | 0, w => w
  | fuel + 1, w =>
    match earliest w.timers with
    | none => w
    | some t => runTimers env fuel (fireTimer env t.id w)

/-- Time passes without any event. -/
def elapse (ms : Nat) (w : World) : World := { w with now := w.now + ms }

/-- A page with no classes, styles, text or timers, for concrete runs. -/
def blankPage : World :=
  { now := 0, timers := [], nextTimer := 1, nextScope := 0, console := [],
    classList := fun _ => [], style := fun _ _ => "", textContent := fun _ => "",
    innerHTML := fun _ => "", hoverListeners := [], animationCount := 0,
    isCardFlipped := false, isLoaderActive := false,
    boxAnimationHandler := ⟨0, "", ""⟩, isAnimating := fun _ => false,
    timeLeft := fun _ => 0, calls := [] }

/-- A clock that prints the instant in milliseconds, for concrete runs. -/
def plainEnv : Env :=
  { toLocaleTimeString := fun t => toString t, callbacks := fun _ w => w,
    hoverElements := ["animatedBox", card, "modalContent"],
    reserialize := fun s => s, toUpperCase := fun s => s,
    numberToString := fun x => toString x }

/-- A draw that selects palette entry `k`: 0, 0.25, 0.375, 0.5, 0.75, 0.875. -/
def drawFor : Fin 6 → Draw
  | 0 => ⟨0, 3, by norm_num, by norm_num, by norm_num⟩
  | 1 => ⟨2, 3, by norm_num, by norm_num, by norm_num⟩
  | 2 => ⟨3, 3, by norm_num, by norm_num, by norm_num⟩
  | 3 => ⟨4, 3, by norm_num, by norm_num, by norm_num⟩
  | 4 => ⟨6, 3, by norm_num, by norm_num, by norm_num⟩
  | 5 => ⟨7, 3, by norm_num, by norm_num, by norm_num⟩

/-- The draw 0.8333333333333333, the double just below 5/6. -/
def drawBelowFiveSixths : Draw :=
  ⟨7505999378950826, 53, by norm_num, by norm_num, by norm_num⟩

/-- What can happen on the page once the script is loaded. -/
inductive Event where
  | domContentLoaded
  | clickAnimateBox (r : Draw)
  | clickFlipCard
  | clickShowModal
  | clickCloseModal
  /-- a click that reaches the modal's listener, with its `e.target` -/
  | clickModal (target : String)
  | clickStartLoader
  | mouseenter (element : String) (r : Draw)
  | mouseleave (element : String)
  /-- the browser runs a timer -/
  | timer (id : Nat)
  | elapse (ms : Nat)

/-- The listener the script registered for each event (lines 86, 102, 136, 137,
140, 166, 176, 181, 215). -/
def handle (env : Env) : Event → World → World
  | Event.domContentLoaded, w => domContentLoaded env w
  | Event.clickAnimateBox r, w => animateBoxClick env r w
  | Event.clickFlipCard, w => flipCardClick env w
  | Event.clickShowModal, w => showModal w
  | Event.clickCloseModal, w => hideModal w
  | Event.clickModal target, w => modalClick target w
  | Event.clickStartLoader, w => (toggleLoader env w).2
  | Event.mouseenter element r, w =>
      if element ∈ w.hoverListeners then hoverEnter env element r w else w
  | Event.mouseleave element, w =>
      if element ∈ w.hoverListeners then hoverLeave element w else w
  | Event.timer id, w => fireTimer env id w
  | Event.elapse ms, w => elapse ms w

/-- A run of the page: the events in order. -/
def runEvents (env : Env) (events : List Event) (w : World) : World :=
  events.foldl (fun w e => handle env e w) w

/-- The step from `w` to `w1` made no call of `updateResults` and left the
counter alone. -/
def SameCount (w w1 : World) : Prop :=
  w1.animationCount = w.animationCount ∧ w1.calls = w.calls

/-- The counter equals the number of calls of `updateResults` made so far. -/
def Counted (w : World) : Prop := w.animationCount = w.calls.length

/-- Whether a timer entry runs the class-removal closure (lines 60-63) of the
lock whose `isAnimating` lives in `scope`. -/
def isRemovalOf (scope : Nat) (t : Timer) : Bool :=
  match t.task with
  | Task.animationEnd s _ _ => decide (s = scope)
  | _ => false

/-- The pending class-removal timeouts of a lock. -/
def pendingRemovals (h : AnimationHandler) (w : World) : List Timer :=
  w.timers.filter (isRemovalOf h.scope)

/-- What can happen to one lock: its function is called, or the browser runs
timer `id`, which concerns the lock only if that timer is one of its removal
timeouts. -/
inductive LockEvent where
  | call
  | timeout (id : Nat)
deriving DecidableEq, Repr

/-- One event of a lock's history. -/
def lockStep (env : Env) (h : AnimationHandler) : LockEvent → World → World
  | LockEvent.call, w => (h.call w).2
  | LockEvent.timeout id, w =>
    match w.timers.find? (fun t => t.id = id) with
    | some t => if isRemovalOf h.scope t then fireTimer env id w else w
    | none => w

/-- A history of a lock: calls and timeout firings in any order. -/
def lockRun (env : Env) (h : AnimationHandler) (events : List LockEvent) (w : World) : World :=
  events.foldl (fun w e => lockStep env h e w) w

/-- What every history of a lock maintains. -/
def LockInv (h : AnimationHandler) (w : World) : Prop :=
  (∀ t ∈ w.timers, t.id < w.nextTimer) ∧
  (∀ t ∈ w.timers, isRemovalOf h.scope t = true → t.period = none) ∧
  (pendingRemovals h w).length ≤ 1 ∧
  ((pendingRemovals h w).length = 1 ↔ w.isAnimating h.scope = true)

/-- Whether an event is a click on the Flip Card button. -/
def isFlipClick : Event → Bool
  | Event.clickFlipCard => true
  | _ => false

/-- Whether an event is a click on the loader button. -/
def isLoaderClick : Event → Bool
  | Event.clickStartLoader => true
  | _ => false

/-- The number of clicks on the Flip Card button in a run. -/
def flipClicks (events : List Event) : Nat := events.countP isFlipClick

/-- The number of clicks on the loader button in a run. -/
def loaderClicks (events : List Event) : Nat := events.countP isLoaderClick

/-- The two toggle flags of lines 101 and 147. -/
def flags (w : World) : Bool × Bool := (w.isCardFlipped, w.isLoaderActive)

/-- The `(message, type)` the `i`-th click (counting from 0) on the Flip Card
button is expected to log. -/
def flipLine (i : Nat) : String × String :=
  (if i % 2 = 0 then "Card flipped to back" else "Card flipped to front", "flip")

/-- The `(message, type)` the `i`-th click (counting from 0) on the loader
button is expected to log. -/
def loaderLine (i : Nat) : String × String :=
  (if i % 2 = 0 then "Loader started" else "Loader stopped", "loader")

/-- The `(message, type)` a countdown tick is expected to log when `n` seconds
are left. -/
def countdownLine (env : Env) (n : Int) : String × String :=
  ("Countdown: " ++ numberToString env n ++ " seconds", "timer")

/-- The tick lines of the first `k` ticks of a countdown whose `timeLeft` is
`left i` at tick `i`. -/
def tickLines (env : Env) (left : Nat → Int) (k : Nat) : List (String × String) :=
  (List.range k).map (fun (i : Nat) => countdownLine env (left i))

/-- The first `k` tick lines of a countdown started at `D`: `D`, `D - 1`, ... -/
def countdownLines (env : Env) (D : Int) (k : Nat) : List (String × String) :=
  tickLines env (fun (i : Nat) => D - (i : Int)) k

/-- The browser runs timer `id` `k` times in a row. -/
def fireTimes (env : Env) (id : Nat) (k : Nat) (w : World) : World :=
  (fireTimer env id)^[k] w

/-- The countdown made by `createCountdownTimer` in `w0` has ticked `k` times,
one second apart, its `timeLeft` being `left i` at tick `i`, and is still
running in `w`. -/
def Ticking (env : Env) (w0 : World) (left : Nat → Int) (cb : Option Callback) (k : Nat)
    (w : World) : Prop :=
  w.timers = w0.timers ++
    [⟨w0.nextTimer, w0.now + 1000 * (k + 1), some 1000,
      Task.countdownTick w0.nextScope w0.nextTimer cb⟩] ∧
  w.now = w0.now + 1000 * k ∧
  w.timeLeft w0.nextScope = left k ∧
  w.calls = w0.calls ++ tickLines env left k ∧
  w.animationCount = w0.animationCount + k

/-- The countdown made in `w0` has finished after `k` ticks: `w` is the state
in which the callback, if any, is called. -/
def Finished (env : Env) (w0 : World) (left : Nat → Int) (k : Nat) (w : World) : Prop :=
  w.timers = w0.timers ∧
  w.now = w0.now + 1000 * k ∧
  w.calls = w0.calls ++ tickLines env left k ++ [("Countdown finished!", "timer")] ∧
  w.animationCount = w0.animationCount + k + 1

/-- A character that the tokenizer takes as text and the serialiser writes back
as it is. -/
def isPlainChar (c : Char) : Bool :=
  decide (c ≠ '<' ∧ c ≠ '&' ∧ c ≠ '>' ∧ c ≠ Char.ofNat 160 ∧ c ≠ Char.ofNat 13 ∧
    c ≠ Char.ofNat 0)

/-- Text free of markup: no `<`, `&`, `>`, no-break space, carriage return or NUL. -/
def Plain (s : String) : Prop := ∀ c ∈ s.data, isPlainChar c = true

/-- Markup that reads back as written, whatever markup follows it: the tokenizer
leaves it in the data state at the depth it started from. -/
def Stable (markup : String) : Prop :=
  ∀ (rest : List Char) (depth : Nat),
    scan (markup.data ++ rest) ScanState.data depth =
      (scan rest ScanState.data depth).map (fun out => markup.data ++ out)

/-! ## Delay calculator, colour generator, result logger -/

/-- C6: `calculateDelay(b, m)` returns exactly `b * m`; with the multiplier
omitted it returns `b`; the script's two delays are 500 and 300. The call
changes nothing but the console, to which it adds one line. -/
theorem calculateDelay_product :
    (∀ (b m : Int) (w : World), (calculateDelay b (some m) w).1 = b * m) ∧
    (∀ (b : Int) (w : World), (calculateDelay b none w).1 = b) ∧
    (∀ w : World, (calculateDelay 500 (some 1) w).1 = 500) ∧
    (∀ w : World, (calculateDelay 300 (some 1) w).1 = 300) ∧
    (∀ (b : Int) (m : Option Int) (w : World),
      (calculateDelay b m w).2 =
        { w with console := w.console ++
                   ["Calculated delay: " ++ toString (b * m.getD 1) ++ "ms"] }) := by
  refine ⟨?_, ?_, ?_, ?_, ?_⟩
  · intro b m w; rfl
  · intro b w; simp [calculateDelay]
  · intro w; rfl
  · intro w; rfl
  · intro b m w; rfl

/-! ## Double rounding -/

theorem roundMantissa_small (n : Nat) (h : n < 2 ^ 53) : roundMantissa n = n := by
  have hs : Nat.size n - 53 = 0 := by
    have := Nat.size_le.mpr h
    omega
  simp [roundMantissa, hs]

theorem roundMantissa_bounds (n : Nat) :
    n / 2 ^ (Nat.size n - 53) * 2 ^ (Nat.size n - 53) ≤ roundMantissa n ∧
    roundMantissa n ≤ n + 2 ^ (Nat.size n - 53 - 1) := by
  by_cases hs : Nat.size n - 53 = 0
  · simp only [roundMantissa, hs, if_true, pow_zero, Nat.div_one, Nat.mul_one]
    exact ⟨le_refl _, Nat.le_add_right _ _⟩
  · obtain ⟨s, hs1⟩ : ∃ s, Nat.size n - 53 = s + 1 := ⟨Nat.size n - 53 - 1, by omega⟩
    have hdm := Nat.div_add_mod n (2 ^ (s + 1))
    have hpow : 2 ^ (s + 1) = 2 * 2 ^ s := by rw [pow_succ]; ring
    have hmul : 2 ^ (s + 1) * (n / 2 ^ (s + 1)) = n / 2 ^ (s + 1) * 2 ^ (s + 1) := by ring
    simp only [roundMantissa, hs1, Nat.succ_ne_zero, if_false, Nat.add_sub_cancel]
    split
    next hup =>
      have hr : 2 ^ s ≤ n % 2 ^ (s + 1) := by
        rcases hup with h | h
        · exact Nat.le_of_lt h
        · exact Nat.le_of_eq h.1.symm
      constructor
      · exact Nat.mul_le_mul_right _ (Nat.le_succ _)
      · rw [Nat.add_mul, Nat.one_mul]
        omega
    next =>
      constructor
      · exact le_refl _
      · omega

theorem roundMantissa_nearest (n s : Nat) (hs : Nat.size n = 53 + (s + 1)) :
    2 ^ (s + 1) ∣ roundMantissa n ∧
    roundMantissa n ≤ n + 2 ^ s ∧
    n ≤ roundMantissa n + 2 ^ s ∧
    ((roundMantissa n = n + 2 ^ s ∨ n = roundMantissa n + 2 ^ s) →
      (roundMantissa n / 2 ^ (s + 1)) % 2 = 0) := by
  have hs1 : Nat.size n - 53 = s + 1 := by omega
  have hP : 0 < 2 ^ s := by positivity
  have hpow : 2 ^ (s + 1) = 2 * 2 ^ s := by rw [pow_succ]; ring
  have hdm := Nat.div_add_mod n (2 ^ (s + 1))
  have hr := Nat.mod_lt n (show 0 < 2 ^ (s + 1) by positivity)
  have hval : roundMantissa n =
      (if 2 ^ s < n % 2 ^ (s + 1) ∨ (n % 2 ^ (s + 1) = 2 ^ s ∧ n / 2 ^ (s + 1) % 2 = 1)
        then n / 2 ^ (s + 1) + 1 else n / 2 ^ (s + 1)) * 2 ^ (s + 1) := by
    simp only [roundMantissa, hs1, Nat.succ_ne_zero, if_false, Nat.add_sub_cancel]
  rw [hval]
  have hcomm : 2 ^ (s + 1) * (n / 2 ^ (s + 1)) = n / 2 ^ (s + 1) * 2 ^ (s + 1) := Nat.mul_comm _ _
  split
  next hup =>
    have hmul : (n / 2 ^ (s + 1) + 1) * 2 ^ (s + 1) =
        n / 2 ^ (s + 1) * 2 ^ (s + 1) + 2 ^ (s + 1) := by ring
    refine ⟨Dvd.intro_left _ rfl, by omega, by omega, ?_⟩
    intro htie
    rw [Nat.mul_div_cancel _ (by positivity)]
    rcases hup with h | h
    · omega
    · omega
  next hdown =>
    refine ⟨Dvd.intro_left _ rfl, by omega, ?_, ?_⟩
    · have : ¬ (2 ^ s < n % 2 ^ (s + 1)) := fun h => hdown (Or.inl h)
      omega
    · intro htie
      rw [Nat.mul_div_cancel _ (by positivity)]
      have h1 : ¬ (2 ^ s < n % 2 ^ (s + 1)) := fun h => hdown (Or.inl h)
      have h2 : ¬ (n % 2 ^ (s + 1) = 2 ^ s ∧ n / 2 ^ (s + 1) % 2 = 1) := fun h => hdown (Or.inr h)
      have hr2 : n % 2 ^ (s + 1) = 2 ^ s := by omega
      have : ¬ (n / 2 ^ (s + 1) % 2 = 1) := fun h => h2 ⟨hr2, h⟩
      omega
theorem roundMantissa_pos (n : Nat) (h : 0 < n) : 0 < roundMantissa n := by
  have hb := (roundMantissa_bounds n).1
  have hle : 2 ^ (Nat.size n - 53) ≤ n := by
    apply Nat.lt_size.mp
    have := Nat.size_pos.mpr h
    omega
  have hq : 0 < n / 2 ^ (Nat.size n - 53) := Nat.div_pos hle (by positivity)
  have : 0 < n / 2 ^ (Nat.size n - 53) * 2 ^ (Nat.size n - 53) :=
    Nat.mul_pos hq (by positivity)
  omega

theorem roundToDouble_small (x : Int) (h : x.natAbs < 2 ^ 53) : roundToDouble x = x := by
  simp only [roundToDouble, roundMantissa_small _ h]
  exact Int.sign_mul_natAbs x

theorem roundToDouble_neg (x : Int) (h : x < 0) : roundToDouble x < 0 := by
  have hpos : 0 < roundMantissa x.natAbs := roundMantissa_pos _ (by omega)
  simp only [roundToDouble, Int.sign_eq_neg_one_of_neg h]
  omega

theorem times_six (r : Draw) :
    r.mantissa * 6 / 2 ^ r.exponent ≤ r.times 6 / 2 ^ r.exponent ∧
    r.times 6 / 2 ^ r.exponent ≤ r.mantissa * 6 / 2 ^ r.exponent + 1 ∧
    r.times 6 / 2 ^ r.exponent < 6 ∧
    (r.mantissa * 6 < 2 ^ 53 → r.times 6 = r.mantissa * 6) := by
  have hm := r.mantissa_lt
  have hlt := r.lt_one
  have hpe : 0 < 2 ^ r.exponent := by positivity
  by_cases hsmall : r.mantissa * 6 < 2 ^ 53
  · have heq : r.times 6 = r.mantissa * 6 := roundMantissa_small _ hsmall
    rw [heq]
    refine ⟨le_refl _, Nat.le_succ _, ?_, fun _ => rfl⟩
    apply (Nat.div_lt_iff_lt_mul hpe).mpr
    omega
  · -- the product has 54 to 56 bits
    have hsize_le : Nat.size (r.mantissa * 6) ≤ 56 := Nat.size_le.mpr (by omega)
    have hsize_ge : 53 < Nat.size (r.mantissa * 6) := Nat.lt_size.mpr (by omega)
    obtain ⟨hlo, hhi⟩ := roundMantissa_bounds (r.mantissa * 6)
    -- the exponent is at least 51
    have hexp : 51 ≤ r.exponent := by
      by_contra hcon
      have h50 : r.exponent ≤ 50 := by omega
      have : 2 ^ r.exponent ≤ 2 ^ 50 := Nat.pow_le_pow_right (by norm_num) h50
      omega
    obtain ⟨e, he⟩ : ∃ e, r.exponent = e + 51 := ⟨r.exponent - 51, by omega⟩
    have hpe2 : 2 ^ r.exponent = 2 ^ e * 2 ^ 51 := by rw [he, pow_add]
    have h4 : 2 ^ (Nat.size (r.mantissa * 6) - 53 - 1) ≤ 4 := by
      have : Nat.size (r.mantissa * 6) - 53 - 1 ≤ 2 := by omega
      calc 2 ^ (Nat.size (r.mantissa * 6) - 53 - 1) ≤ 2 ^ 2 :=
            Nat.pow_le_pow_right (by norm_num) this
        _ = 4 := by norm_num
    have hup : r.times 6 ≤ r.mantissa * 6 + 4 := le_trans hhi (Nat.add_le_add_left h4 _)
    have he1 : 1 ≤ 2 ^ e := Nat.one_le_two_pow
    refine ⟨?_, ?_, ?_, fun h => absurd h hsmall⟩
    · -- rounding down does not pass a multiple of 2 ^ exponent
      apply (Nat.le_div_iff_mul_le hpe).mpr
      refine le_trans ?_ hlo
      obtain ⟨s, hs⟩ : ∃ s, Nat.size (r.mantissa * 6) - 53 = s ∧ s ≤ 3 := ⟨_, rfl, by omega⟩
      rw [hs.1]
      obtain ⟨t, ht⟩ : ∃ t, r.exponent = t + s := ⟨r.exponent - s, by omega⟩
      have hpt : 2 ^ r.exponent = 2 ^ t * 2 ^ s := by rw [ht, pow_add]
      rw [hpt, ← Nat.mul_assoc]
      apply Nat.mul_le_mul_right
      apply (Nat.le_div_iff_mul_le (by positivity)).mpr
      rw [Nat.mul_assoc, ← hpt]
      exact Nat.div_mul_le_self _ _
    · calc r.times 6 / 2 ^ r.exponent ≤ (r.mantissa * 6 + 4) / 2 ^ r.exponent :=
            Nat.div_le_div_right hup
        _ ≤ (r.mantissa * 6 + 2 ^ r.exponent) / 2 ^ r.exponent := by
            apply Nat.div_le_div_right
            have : 4 ≤ 2 ^ r.exponent := by rw [hpe2]; nlinarith
            omega
        _ = r.mantissa * 6 / 2 ^ r.exponent + 1 := Nat.add_div_right _ hpe
    · apply (Nat.div_lt_iff_lt_mul hpe).mpr
      omega

theorem floor_six (r : Draw) :
    ⌊6 * r.val⌋ = ((r.mantissa * 6 / 2 ^ r.exponent : Nat) : Int) := by
  have h : 6 * r.val = ((r.mantissa * 6 : Nat) : ℚ) / ((2 ^ r.exponent : Nat) : ℚ) := by
    simp only [Draw.val]
    push_cast
    ring
  rw [h, Rat.floor_natCast_div_natCast]
  norm_cast

theorem index_eq (env : Env) (r : Draw) (w : World) :
    (generateRandomColor env r w).index = ((r.times 6 / 2 ^ r.exponent : Nat) : Int) := rfl

theorem color_eq (env : Env) (r : Draw) (w : World) :
    (generateRandomColor env r w).color = colors[r.times 6 / 2 ^ r.exponent]? := by
  simp only [generateRandomColor, jsIndex]
  rw [if_neg (not_lt.mpr (Int.natCast_nonneg _)), Int.toNat_natCast]
  rfl

theorem drawFor_index (env : Env) (w : World) (k : Fin 6) :
    (generateRandomColor env (drawFor k) w).index = (k.val : Int) ∧
    (generateRandomColor env (drawFor k) w).color = colors[k.val]? := by
  have hidx : (drawFor k).times 6 / 2 ^ (drawFor k).exponent = k.val := by
    have hsmall : (drawFor k).mantissa * 6 < 2 ^ 53 := by
      fin_cases k <;> decide
    rw [(times_six (drawFor k)).2.2.2 hsmall]
    fin_cases k <;> rfl
  rw [index_eq, color_eq, hidx]
  exact ⟨rfl, rfl⟩

/-- C7: for every draw `r`, a double in `[0, 1)`, `generateRandomColor` returns
as index the floor of the double product `r * 6`; this is `floor(6 r)` when the
product is exact and otherwise `floor(6 r)` or one more (when the product rounds
up to an integer). The index lies in `[0, 5]`, the colour is the entry at that
index of the six-entry palette and is never undefined, and each of the six
entries is returned for some draw. The product's numerator is rounded as a
double is: exact below `2 ^ 53`, and otherwise to a multiple of the spacing at
most half a spacing away, the even multiple on a tie. -/
theorem generateRandomColor_palette (env : Env) (w : World) :
    colors = ["#ff6b6b", "#4ecdc4", "#45b7d1", "#96ceb4", "#feca57", "#ff9ff3"] ∧
    (∀ r : Draw,
      (generateRandomColor env r w).index =
        ((roundMantissa (r.mantissa * 6) / 2 ^ r.exponent : Nat) : Int) ∧
      ⌊6 * r.val⌋ ≤ (generateRandomColor env r w).index ∧
      (generateRandomColor env r w).index ≤ ⌊6 * r.val⌋ + 1 ∧
      (r.mantissa * 6 < 2 ^ 53 → (generateRandomColor env r w).index = ⌊6 * r.val⌋) ∧
      0 ≤ r.val ∧ r.val < 1 ∧
      0 ≤ (generateRandomColor env r w).index ∧
      (generateRandomColor env r w).index ≤ 5 ∧
      (generateRandomColor env r w).color = colors[(generateRandomColor env r w).index.toNat]? ∧
      (generateRandomColor env r w).color ≠ none ∧
      (∃ c ∈ colors, (generateRandomColor env r w).color = some c)) ∧
    (∀ k : Fin 6, ∃ r : Draw,
      (generateRandomColor env r w).index = (k.val : Int) ∧
      (generateRandomColor env r w).color = colors[k.val]?) ∧
    (∀ c ∈ colors, ∃ r : Draw, (generateRandomColor env r w).color = some c) ∧
    (∀ n : Nat, n < 2 ^ 53 → roundMantissa n = n) ∧
    (∀ n s : Nat, Nat.size n = 53 + (s + 1) →
      2 ^ (s + 1) ∣ roundMantissa n ∧
      roundMantissa n ≤ n + 2 ^ s ∧
      n ≤ roundMantissa n + 2 ^ s ∧
      ((roundMantissa n = n + 2 ^ s ∨ n = roundMantissa n + 2 ^ s) →
        (roundMantissa n / 2 ^ (s + 1)) % 2 = 0)) := by
  refine ⟨rfl, ?_, ?_, ?_, roundMantissa_small, roundMantissa_nearest⟩
  · intro r
    obtain ⟨hlo, hhi, h6, hexact⟩ := times_six r
    have hlt : r.times 6 / 2 ^ r.exponent < colors.length := h6
    have hsome : colors[r.times 6 / 2 ^ r.exponent]? =
        some (colors.get ⟨_, hlt⟩) := List.getElem?_eq_getElem hlt
    have hpe : (0 : ℚ) < 2 ^ r.exponent := by positivity
    refine ⟨rfl, ?_, ?_, ?_, ?_, ?_, ?_, ?_, ?_, ?_, ?_⟩
    · rw [floor_six, index_eq]; exact_mod_cast hlo
    · rw [floor_six, index_eq]; exact_mod_cast hhi
    · intro hs
      rw [floor_six, index_eq, hexact hs]
    · simp only [Draw.val]; positivity
    · simp only [Draw.val]
      rw [div_lt_one hpe]
      exact_mod_cast r.lt_one
    · rw [index_eq]; positivity
    · rw [index_eq]
      have : r.times 6 / 2 ^ r.exponent ≤ 5 := by omega
      exact_mod_cast this
    · rw [color_eq, index_eq]; rfl
    · rw [color_eq, hsome]; simp
    · exact ⟨_, List.get_mem _ _ _, by rw [color_eq, hsome]⟩
  · intro k; exact ⟨drawFor k, drawFor_index env w k⟩
  · intro c hc
    obtain ⟨n, hn, rfl⟩ := List.getElem_of_mem hc
    have hn6 : n < 6 := hn
    refine ⟨drawFor ⟨n, hn6⟩, ?_⟩
    rw [(drawFor_index env w ⟨n, hn6⟩).2]
    exact List.getElem?_eq_getElem hn

theorem generateRandomColor_palette_witness :
    "#45b7d1" ∈ colors ∧
    ∃ r : Draw, (generateRandomColor plainEnv r blankPage).color = some "#45b7d1" := by
  have hmem : "#45b7d1" ∈ colors := by decide
  exact ⟨hmem, (generateRandomColor_palette plainEnv blankPage).2.2.2.1 "#45b7d1" hmem⟩

theorem roundMantissa_belowFiveSixths :
    roundMantissa 45035996273704956 = 45035996273704960 := by
  have hsize : Nat.size 45035996273704956 = 56 := by
    apply le_antisymm
    · exact Nat.size_le.mpr (by norm_num)
    · exact Nat.lt_size.mpr (by norm_num)
  unfold roundMantissa
  rw [hsize]
  norm_num

/-- At the draw 0.8333333333333333 the double product `r * 6` rounds up to 5, so
the index is 5 and the colour `#ff9ff3`, while `floor(6 r)` is 4. -/
theorem generateRandomColor_rounds_up :
    (6 * drawBelowFiveSixths.val < 5) ∧
    ⌊6 * drawBelowFiveSixths.val⌋ = 4 ∧
    (generateRandomColor plainEnv drawBelowFiveSixths blankPage).index = 5 ∧
    (generateRandomColor plainEnv drawBelowFiveSixths blankPage).color = some "#ff9ff3" ∧
    (generateRandomColor plainEnv drawBelowFiveSixths blankPage).index ≠
      ⌊6 * drawBelowFiveSixths.val⌋ := by
  have htimes : drawBelowFiveSixths.times 6 = 45035996273704960 := by
    have hprod : drawBelowFiveSixths.mantissa * 6 = 45035996273704956 := by
      simp only [drawBelowFiveSixths]
    simp only [Draw.times, hprod]
    exact roundMantissa_belowFiveSixths
  have hidx : (generateRandomColor plainEnv drawBelowFiveSixths blankPage).index = 5 := by
    rw [index_eq, htimes]
    simp only [drawBelowFiveSixths]
    norm_num
  have hfloor : ⌊6 * drawBelowFiveSixths.val⌋ = 4 := by
    rw [floor_six]
    simp only [drawBelowFiveSixths]
    norm_num
  refine ⟨?_, hfloor, hidx, ?_, ?_⟩
  · simp only [Draw.val, drawBelowFiveSixths]
    norm_num
  · rw [color_eq, htimes]
    simp only [drawBelowFiveSixths]
    norm_num [colors]
  · rw [hidx, hfloor]; decide

/-! ## Markup lemmas -/

theorem scan_plain (t : List Char) (ht : ∀ c ∈ t, isPlainChar c = true)
    (rest : List Char) (depth : Nat) :
    scan (t ++ rest) ScanState.data depth =
      (scan rest ScanState.data depth).map (fun out => t ++ out) := by
  induction t with
  | nil => simp
  | cons c cs ih =>
    have hc := ht c (List.mem_cons_self _ _)
    simp only [isPlainChar, decide_eq_true_eq] at hc
    obtain ⟨h1, h2, h3, h4, h5, h6⟩ := hc
    have ih2 := ih (fun x hx => ht x (List.mem_cons_of_mem _ hx))
    have hstep : scan (c :: (cs ++ rest)) ScanState.data depth =
        (scan (cs ++ rest) ScanState.data depth).map (fun out => c :: out) := by
      simp [scan, dataChar, h1, h2, h5, h6, escapeChar, h3, h4]
    rw [List.cons_append, hstep, ih2, Option.map_map]
    rfl

theorem scan_divOpen (rest : List Char) (depth : Nat) :
    scan ("<div>".data ++ rest) ScanState.data depth =
      (scan rest ScanState.data (depth + 1)).map (fun out => "<div>".data ++ out) := by
  simp +decide [scan, dataChar]

theorem scan_divClose (rest : List Char) (depth : Nat) :
    scan ("</div>".data ++ rest) ScanState.data (depth + 1) =
      (scan rest ScanState.data depth).map (fun out => "</div>".data ++ out) := by
  simp +decide [scan, dataChar]

theorem scan_br (rest : List Char) (depth : Nat) :
    scan ("<br>".data ++ rest) ScanState.data depth =
      (scan rest ScanState.data depth).map (fun out => "<br>".data ++ out) := by
  simp +decide [scan, dataChar]

theorem stable_append {a b : String} (ha : Stable a) (hb : Stable b) : Stable (a ++ b) := by
  intro rest depth
  rw [String.data_append, List.append_assoc, ha, hb, Option.map_map]
  congr 1
  funext out
  simp

theorem stable_div (t : String) (ht : Plain t) : Stable ("<div>" ++ t ++ "</div>") := by
  intro rest depth
  rw [String.data_append, String.data_append, List.append_assoc, List.append_assoc,
    scan_divOpen, scan_plain t.data ht, scan_divClose]
  simp only [Option.map_map]
  congr 1
  funext out
  simp

theorem stable_br : Stable "<br>" := by
  intro rest depth
  exact scan_br rest depth

theorem stable_empty : Stable "" := by
  intro rest depth
  simp

theorem stable_plain (t : String) (ht : Plain t) : Stable t := by
  intro rest depth
  exact scan_plain t.data ht rest depth

theorem reserialize_stable (env : Env) {m : String} (hm : Stable m) : reserialize env m = m := by
  have h := hm [] 0
  simp only [List.append_nil] at h
  have h0 : scan [] ScanState.data 0 = some [] := by simp [scan]
  rw [h0] at h
  simp only [reserialize, h, Option.map_some', List.append_nil]

theorem plain_digitChar (n : Nat) (hn : n < 10) : isPlainChar (Nat.digitChar n) = true := by
  interval_cases n <;> decide

theorem plain_toDigitsCore (fuel n : Nat) (ds : List Char)
    (hds : ∀ c ∈ ds, isPlainChar c = true) :
    ∀ c ∈ Nat.toDigitsCore 10 fuel n ds, isPlainChar c = true := by
  induction fuel generalizing n ds with
  | zero => simpa [Nat.toDigitsCore] using hds
  | succ f ih =>
    have hcons : ∀ c ∈ Nat.digitChar (n % 10) :: ds, isPlainChar c = true := by
      intro c hc
      rcases List.mem_cons.mp hc with rfl | hc
      · exact plain_digitChar _ (Nat.mod_lt _ (by norm_num))
      · exact hds c hc
    simp only [Nat.toDigitsCore]
    split
    · exact hcons
    · exact ih _ _ hcons

theorem plain_natToString (n : Nat) : Plain (toString n) := by
  intro c hc
  have : (toString n).data = Nat.toDigits 10 n := rfl
  rw [this] at hc
  exact plain_toDigitsCore _ _ [] (by simp) c hc

theorem toString_string (s : String) : toString s = s := rfl

theorem updateResults_fst (env : Env) (message : String) (type : Option String) (w : World) :
    (updateResults env message type w).1 =
      "[" ++ env.toLocaleTimeString w.now ++ "] " ++ toUpperCase env (type.getD "info") ++ ": "
        ++ message := by
  simp [updateResults, formatMessage, toString_string, String.append_assoc]

theorem updateResults_html (env : Env) (message : String) (type : Option String) (w : World) :
    (updateResults env message type w).2.innerHTML "results" =
      reserialize env
        (reserialize env
            (w.innerHTML "results" ++ "<div>" ++ (updateResults env message type w).1 ++ "</div>")
          ++ "<div>Total animations: " ++ toString (w.animationCount + 1) ++ "</div><br>") := by
  have hA : w.innerHTML "results" ++
      (toString "<div>" ++ toString (updateResults env message type w).1 ++ toString "</div>") =
      w.innerHTML "results" ++ "<div>" ++ (updateResults env message type w).1 ++ "</div>" := by
    simp only [toString_string, String.append_assoc]
  have hB : ∀ x : String, x ++
      (toString "<div>Total animations: " ++ toString (w.animationCount + 1) ++
        toString "</div><br>") =
      x ++ "<div>Total animations: " ++ toString (w.animationCount + 1) ++ "</div><br>" := by
    intro x
    simp only [toString_string, String.append_assoc]
  rw [← hA, ← hB]
  simp only [updateResults, Function.update_same]

theorem stable_line (line : String) (n : Nat) (hl : Plain line) :
    Stable ("<div>" ++ line ++ "</div>") ∧
    Stable ("<div>Total animations: " ++ toString n ++ "</div><br>") := by
  refine ⟨stable_div line hl, ?_⟩
  have hp : Plain ("Total animations: " ++ toString n) := by
    intro c hc
    rw [String.data_append, List.mem_append] at hc
    rcases hc with hc | hc
    · revert c; decide
    · exact plain_natToString n c hc
  have h := stable_append (stable_div _ hp) stable_br
  have heq : "<div>" ++ ("Total animations: " ++ toString n) ++ "</div>" ++ "<br>" =
      "<div>Total animations: " ++ toString n ++ "</div><br>" := by
    apply String.ext
    simp [String.data_append]
  rw [heq] at h
  exact h

theorem updateResults_html_plain (env : Env) (message : String) (type : Option String)
    (w : World) (hprior : Stable (w.innerHTML "results"))
    (hline : Plain (updateResults env message type w).1) :
    (updateResults env message type w).2.innerHTML "results" =
      w.innerHTML "results" ++ "<div>" ++ (updateResults env message type w).1 ++ "</div>"
        ++ "<div>Total animations: " ++ toString (w.animationCount + 1) ++ "</div><br>" ∧
    Stable ((updateResults env message type w).2.innerHTML "results") := by
  obtain ⟨h1, h2⟩ := stable_line (updateResults env message type w).1 (w.animationCount + 1) hline
  have hs1 : Stable (w.innerHTML "results" ++ "<div>" ++ (updateResults env message type w).1
      ++ "</div>") := by
    have := stable_append hprior h1
    simpa only [String.append_assoc] using this
  have hs2 : Stable (w.innerHTML "results" ++ "<div>" ++ (updateResults env message type w).1
      ++ "</div>" ++ "<div>Total animations: " ++ toString (w.animationCount + 1)
      ++ "</div><br>") := by
    have := stable_append hs1 h2
    simpa only [String.append_assoc] using this
  have heq := updateResults_html env message type w
  rw [reserialize_stable env hs1, reserialize_stable env hs2] at heq
  exact ⟨heq, by rw [heq]; exact hs2⟩

theorem toUpperCase_ascii (env : Env) (t : String) (ht : ∀ c ∈ t.data, c.toNat < 128) :
    (toUpperCase env t).data =
      t.data.map (fun c => if 97 ≤ c.toNat ∧ c.toNat ≤ 122 then Char.ofNat (c.toNat - 32)
        else c) := by
  have hall : t.data.all (fun c => decide (c.toNat < 128)) = true := by
    simpa [List.all_eq_true] using ht
  simp only [toUpperCase, hall, if_true]
  rfl

/-- C8: `updateResults` returns the line `[timestamp] TYPE: message`, TYPE being
the type in upper case (`INFO` when the type is omitted). It sets the results
area to what the browser reads back from the old content plus a div with the
line, and then from that plus a div with the running total and a line break.
When the old content reads back as written and the line has no `&`, `<`, `>`,
no-break space, carriage return or NUL, the new content is the old content
followed by the line div, the total div and the line break, the old content is
a prefix of it, and it again reads back as written. No other element, class
list, style or text is touched. Markup that reads back as written includes the
empty string, markup-free text, a div of markup-free text, `<br>`, and any
concatenation of such. -/
theorem updateResults_append_only (env : Env) (message : String) (type : Option String)
    (w : World) :
    (updateResults env message type w).1 =
      "[" ++ env.toLocaleTimeString w.now ++ "] " ++ toUpperCase env (type.getD "info") ++ ": "
        ++ message ∧
    (∀ t : String, (∀ c ∈ t.data, c.toNat < 128) →
      (toUpperCase env t).data =
        t.data.map (fun c => if 97 ≤ c.toNat ∧ c.toNat ≤ 122 then Char.ofNat (c.toNat - 32)
          else c)) ∧
    (∀ t : String, (¬ ∀ c ∈ t.data, c.toNat < 128) → toUpperCase env t = env.toUpperCase t) ∧
    toUpperCase env "info" = "INFO" ∧
    toUpperCase env "warning" = "WARNING" ∧
    (updateResults env message type w).2.innerHTML "results" =
      reserialize env
        (reserialize env
            (w.innerHTML "results" ++ "<div>" ++ (updateResults env message type w).1 ++ "</div>")
          ++ "<div>Total animations: " ++ toString (w.animationCount + 1) ++ "</div><br>") ∧
    (Stable (w.innerHTML "results") → Plain (updateResults env message type w).1 →
      (updateResults env message type w).2.innerHTML "results" =
        w.innerHTML "results" ++ "<div>" ++ (updateResults env message type w).1 ++ "</div>"
          ++ "<div>Total animations: " ++ toString (w.animationCount + 1) ++ "</div><br>" ∧
      (w.innerHTML "results").data <+:
        ((updateResults env message type w).2.innerHTML "results").data ∧
      Stable ((updateResults env message type w).2.innerHTML "results")) ∧
    (∀ e, e ≠ "results" → (updateResults env message type w).2.innerHTML e = w.innerHTML e) ∧
    (updateResults env message type w).2.classList = w.classList ∧
    (updateResults env message type w).2.style = w.style ∧
    (updateResults env message type w).2.textContent = w.textContent ∧
    Stable "" ∧ Stable "<br>" ∧
    (∀ t : String, Plain t → Stable t ∧ Stable ("<div>" ++ t ++ "</div>")) ∧
    (∀ a b : String, Stable a → Stable b → Stable (a ++ b)) ∧
    (∀ m : String, Stable m → reserialize env m = m) := by
  refine ⟨updateResults_fst env message type w, toUpperCase_ascii env, ?_, rfl, rfl,
    updateResults_html env message type w, ?_, ?_, rfl, rfl, rfl, stable_empty, stable_br,
    fun t ht => ⟨stable_plain t ht, stable_div t ht⟩, fun a b ha hb => stable_append ha hb,
    fun m hm => reserialize_stable env hm⟩
  · intro t ht
    have hall : ¬ (t.data.all (fun c => decide (c.toNat < 128)) = true) := by
      simpa [List.all_eq_true] using ht
    simp only [toUpperCase, hall]
    rfl
  · intro hprior hline
    obtain ⟨heq, hst⟩ := updateResults_html_plain env message type w hprior hline
    refine ⟨heq, ?_, hst⟩
    rw [heq]
    simp only [String.data_append, List.append_assoc]
    exact List.prefix_append _ _
  · intro e he
    simp [updateResults, Function.update, he]

theorem updateResults_append_only_witness :
    Stable (blankPage.innerHTML "results") ∧
    Plain (updateResults plainEnv "Card flipped to back" (some "flip") blankPage).1 ∧
    (updateResults plainEnv "Card flipped to back" (some "flip") blankPage).2.innerHTML "results" =
      "<div>[0] FLIP: Card flipped to back</div><div>Total animations: 1</div><br>" := by
  have hs : Stable (blankPage.innerHTML "results") := stable_empty
  have hp : Plain (updateResults plainEnv "Card flipped to back" (some "flip") blankPage).1 := by
    intro c hc
    revert c hc
    decide
  have h := ((updateResults_append_only plainEnv "Card flipped to back" (some "flip")
    blankPage).2.2.2.2.2.2.1 hs hp).1
  exact ⟨hs, hp, h.trans (by decide)⟩

/-- With the message `a < b & c` the browser stores the line div as
`a &lt; b &amp; c`: the new content is not the old content followed by a div
holding the line as written. -/
theorem updateResults_escapes_markup :
    (updateResults plainEnv "a < b & c" none blankPage).1 = "[0] INFO: a < b & c" ∧
    (updateResults plainEnv "a < b & c" none blankPage).2.innerHTML "results" =
      "<div>[0] INFO: a &lt; b &amp; c</div><div>Total animations: 1</div><br>" ∧
    (updateResults plainEnv "a < b & c" none blankPage).2.innerHTML "results" ≠
      blankPage.innerHTML "results" ++ "<div>" ++
        (updateResults plainEnv "a < b & c" none blankPage).1 ++ "</div>" ++
        "<div>Total animations: " ++ toString (blankPage.animationCount + 1) ++ "</div><br>" := by
  decide

/-! ## The animation counter -/

theorem counted_updateResults (env : Env) (m : String) (t : Option String) (w : World)
    (h : Counted w) : Counted (updateResults env m t w).2 := by
  simp only [Counted, updateResults, List.length_append, List.length_singleton] at *
  omega

theorem counted_of_sameCount {w w1 : World} (h : Counted w) (hs : SameCount w w1) :
    Counted w1 := by
  simp only [Counted, SameCount] at *
  rw [hs.1, hs.2]; exact h

theorem sameCount_call (h : AnimationHandler) (w : World) : SameCount w (h.call w).2 := by
  unfold AnimationHandler.call
  split <;> exact ⟨rfl, rfl⟩

theorem sameCount_initFold (l : List String) (acc : Nat × World) :
    SameCount acc.2 (l.foldl
      (fun (acc : Nat × World) element =>
        (acc.1 + 1, { acc.2 with hoverListeners := acc.2.hoverListeners ++ [element] }))
      acc).2 := by
  induction l generalizing acc with
  | nil => exact ⟨rfl, rfl⟩
  | cons x xs ih =>
    simp only [List.foldl_cons]
    have h := ih (acc.1 + 1, { acc.2 with hoverListeners := acc.2.hoverListeners ++ [x] })
    exact h

theorem counted_initElements (env : Env) (w : World) (h : Counted w) :
    Counted (initializeInteractiveElements env w).2 := by
  unfold initializeInteractiveElements
  exact counted_updateResults _ _ _ _ (counted_of_sameCount h (sameCount_initFold _ (0, w)))

theorem counted_callback (env : Env)
    (hcb : ∀ k w, Counted w → Counted (env.callbacks k w))
    (c : Callback) (w : World) (h : Counted w) : Counted (c.call env w) := by
  cases c with
  | demoComplete => exact counted_updateResults _ _ _ _ h
  | external k => exact hcb k w h

theorem counted_countdownTick (env : Env)
    (hcb : ∀ k w, Counted w → Counted (env.callbacks k w))
    (scope timer : Nat) (cb : Option Callback) (w : World) (h : Counted w) :
    Counted (countdownTick env scope timer cb w) := by
  unfold countdownTick
  have h1 := counted_updateResults env
    (toString "Countdown: " ++ toString (numberToString env (w.timeLeft scope)) ++
      toString " seconds") (some "timer") w h
  simp only []
  split
  · cases cb with
    | none =>
      exact counted_updateResults _ _ _ _ (counted_of_sameCount h1 ⟨rfl, rfl⟩)
    | some c =>
      exact counted_callback env hcb c _
        (counted_updateResults _ _ _ _ (counted_of_sameCount h1 ⟨rfl, rfl⟩))
  · exact counted_of_sameCount h1 ⟨rfl, rfl⟩

theorem counted_runTask (env : Env)
    (hcb : ∀ k w, Counted w → Counted (env.callbacks k w))
    (t : Task) (w : World) (h : Counted w) : Counted (runTask env t w) := by
  cases t with
  | animationEnd s e c => exact h
  | modalReveal => exact counted_updateResults _ _ _ _ h
  | modalHidden => exact counted_updateResults _ _ _ _ h
  | countdownTick s i c => exact counted_countdownTick env hcb s i c w h
  | demoCountdown => exact h

theorem counted_fireTimer (env : Env)
    (hcb : ∀ k w, Counted w → Counted (env.callbacks k w))
    (id : Nat) (w : World) (h : Counted w) : Counted (fireTimer env id w) := by
  unfold fireTimer
  split
  · exact h
  · exact counted_runTask env hcb _ _ h

theorem counted_handle (env : Env)
    (hcb : ∀ k w, Counted w → Counted (env.callbacks k w))
    (e : Event) (w : World) (h : Counted w) : Counted (handle env e w) := by
  cases e with
  | domContentLoaded =>
    have h1 := counted_initElements env w h
    exact counted_updateResults _ _ _ _ (counted_updateResults _ _ _ _ h1)
  | clickAnimateBox r =>
    have h1 := counted_of_sameCount h (sameCount_call w.boxAnimationHandler w)
    show Counted (animateBoxClick env r w)
    unfold animateBoxClick
    simp only []
    split
    · exact counted_updateResults _ _ _ _ h1
    · exact counted_updateResults _ _ _ _ h1
  | clickFlipCard =>
    show Counted (flipCardClick env w)
    unfold flipCardClick
    by_cases hf : w.isCardFlipped = true
    · simp only [hf, if_true]; exact counted_updateResults env _ _ _ h
    · simp only [hf]; exact counted_updateResults env _ _ _ h
  | clickShowModal => exact h
  | clickCloseModal => exact h
  | clickModal target =>
    show Counted (modalClick target w)
    unfold modalClick
    split <;> exact h
  | clickStartLoader =>
    show Counted (toggleLoader env w).2
    unfold toggleLoader
    by_cases hf : w.isLoaderActive = true
    · simp only [hf, if_true]; exact counted_updateResults env _ _ _ h
    · simp only [hf]; exact counted_updateResults env _ _ _ h
  | mouseenter element r =>
    show Counted (if element ∈ w.hoverListeners then hoverEnter env element r w else w)
    split <;> exact h
  | mouseleave element =>
    show Counted (if element ∈ w.hoverListeners then hoverLeave element w else w)
    split <;> exact h
  | timer id => exact counted_fireTimer env hcb id w h
  | elapse ms => exact h

theorem counted_runEvents (env : Env)
    (hcb : ∀ k w, Counted w → Counted (env.callbacks k w))
    (events : List Event) (w : World) (h : Counted w) : Counted (runEvents env events w) := by
  induction events generalizing w with
  | nil => exact h
  | cons e es ih => exact ih _ (counted_handle env hcb e w h)

/-- C5: every call of `updateResults` raises `animationCount` by exactly one;
the script's other operations leave it as it is; so after any run of events
since the script was loaded (callbacks from outside being held to the same
discipline) `animationCount` is the number of `updateResults` calls made, and
the total line the k-th call appends to the results area, which the browser
then parses, shows k; when the old content reads back as written and the line
is free of markup, the new content ends with that total line as written. -/
theorem animationCount_counts_calls (env : Env)
    (hcb : ∀ k w, Counted w → Counted (env.callbacks k w)) :
    (∀ (m : String) (t : Option String) (w : World),
      (updateResults env m t w).2.animationCount = w.animationCount + 1 ∧
      (updateResults env m t w).2.calls = w.calls ++ [(m, t.getD "info")]) ∧
    (∀ w : World,
      (∀ b m, SameCount w (calculateDelay b m w).2) ∧
      (∀ e c, SameCount w (createAnimationHandler e c w).2) ∧
      (∀ h : AnimationHandler, SameCount w (h.call w).2) ∧
      (∀ s e c, SameCount w (runTask env (Task.animationEnd s e c) w)) ∧
      SameCount w (showModal w) ∧
      SameCount w (hideModal w) ∧
      (∀ d c, SameCount w (createCountdownTimer d c w).2) ∧
      (∀ e r, SameCount w (hoverEnter env e r w)) ∧
      (∀ e, SameCount w (hoverLeave e w)) ∧
      (∀ t d, SameCount w (setTimeout t d w).2) ∧
      (∀ i, SameCount w (clearInterval i w))) ∧
    (∀ (page : World) (events : List Event),
      (runEvents env events (loadScript page)).animationCount =
        (runEvents env events (loadScript page)).calls.length ∧
      (∀ (m : String) (t : Option String),
        (updateResults env m t (runEvents env events (loadScript page))).2.innerHTML "results" =
          reserialize env
            (reserialize env
                ((runEvents env events (loadScript page)).innerHTML "results" ++ "<div>" ++
                  (updateResults env m t (runEvents env events (loadScript page))).1 ++ "</div>")
              ++ "<div>Total animations: " ++
              toString ((runEvents env events (loadScript page)).calls.length + 1) ++
              "</div><br>")) ∧
      ∀ (m : String) (t : Option String),
        Stable ((runEvents env events (loadScript page)).innerHTML "results") →
        Plain (updateResults env m t (runEvents env events (loadScript page))).1 →
        (updateResults env m t (runEvents env events (loadScript page))).2.innerHTML "results" =
          (runEvents env events (loadScript page)).innerHTML "results" ++ "<div>" ++
            (updateResults env m t (runEvents env events (loadScript page))).1 ++ "</div>" ++
            "<div>Total animations: " ++
            toString ((runEvents env events (loadScript page)).calls.length + 1) ++
            "</div><br>") := by
  refine ⟨fun m t w => ⟨rfl, rfl⟩, fun w => ?_, fun page events => ?_⟩
  · exact ⟨fun _ _ => ⟨rfl, rfl⟩, fun _ _ => ⟨rfl, rfl⟩, fun h => sameCount_call h w,
      fun _ _ _ => ⟨rfl, rfl⟩, ⟨rfl, rfl⟩, ⟨rfl, rfl⟩, fun _ _ => ⟨rfl, rfl⟩,
      fun _ _ => ⟨rfl, rfl⟩, fun _ => ⟨rfl, rfl⟩, fun _ _ => ⟨rfl, rfl⟩, fun _ => ⟨rfl, rfl⟩⟩
  · have h0 : Counted (loadScript page) := rfl
    have h := counted_runEvents env hcb events _ h0
    have hc : (runEvents env events (loadScript page)).animationCount =
        (runEvents env events (loadScript page)).calls.length := h
    refine ⟨h, fun m t => ?_, fun m t hs hp => ?_⟩
    · rw [← hc]
      exact updateResults_html env m t _
    · rw [← hc]
      exact (updateResults_html_plain env m t _ hs hp).1

theorem animationCount_counts_calls_witness :
    (∀ k w, Counted w → Counted (plainEnv.callbacks k w)) ∧
    (runEvents plainEnv [Event.clickFlipCard, Event.clickStartLoader, Event.clickShowModal]
      (loadScript blankPage)).animationCount = 2 ∧
    (runEvents plainEnv [Event.clickFlipCard, Event.clickStartLoader, Event.clickShowModal]
      (loadScript blankPage)).calls.length = 2 := by
  have hcb : ∀ k w, Counted w → Counted (plainEnv.callbacks k w) := fun _ _ h => h
  refine ⟨hcb, rfl, ?_⟩
  have h := ((animationCount_counts_calls plainEnv hcb).2.2 blankPage
    [Event.clickFlipCard, Event.clickStartLoader, Event.clickShowModal]).1
  rw [← h]; rfl

/-! ## The animation lock -/

theorem not_mem_classListRemove (l : List String) (token : String) :
    token ∉ classListRemove l token := by
  simp [classListRemove]

theorem mem_classListAdd (l : List String) (token : String) :
    token ∈ classListAdd l token := by
  unfold classListAdd
  split
  · assumption
  · simp

theorem call_busy (h : AnimationHandler) (w : World) (hb : w.isAnimating h.scope = true) :
    h.call w = (false, w) := by
  simp [AnimationHandler.call, hb]

theorem call_free (h : AnimationHandler) (w : World) (hf : w.isAnimating h.scope = false) :
    h.call w = (true,
      { w with isAnimating := Function.update w.isAnimating h.scope true,
               classList := Function.update w.classList h.elementId
                 (classListAdd (w.classList h.elementId) h.animationClass),
               console := w.console ++ ["Calculated delay: 500ms"],
               timers := w.timers ++ [⟨w.nextTimer, w.now + 500, none,
                 Task.animationEnd h.scope h.elementId h.animationClass⟩],
               nextTimer := w.nextTimer + 1 }) := by
  simp [AnimationHandler.call, hf, calculateDelay, setTimeout, World.addClass]
  rfl

theorem find_append_fresh (l : List Timer) (t : Timer) (hfresh : ∀ u ∈ l, u.id ≠ t.id) :
    (l ++ [t]).find? (fun u => decide (u.id = t.id)) = some t := by
  induction l with
  | nil => simp
  | cons a as ih =>
    have ha : a.id ≠ t.id := hfresh a (List.mem_cons_self _ _)
    have has : ∀ u ∈ as, u.id ≠ t.id := fun u hu => hfresh u (List.mem_cons_of_mem _ hu)
    simp only [List.cons_append, List.find?_cons, ha, decide_False]
    exact ih has

theorem filter_append_fresh (l : List Timer) (t : Timer) (hfresh : ∀ u ∈ l, u.id ≠ t.id) :
    (l ++ [t]).filter (fun u => decide (u.id ≠ t.id)) = l := by
  rw [List.filter_append]
  have h1 : l.filter (fun u => decide (u.id ≠ t.id)) = l :=
    List.filter_eq_self.mpr (fun u hu => by simpa using hfresh u hu)
  rw [h1]; simp

theorem fire_fresh_removal (env : Env) (h : AnimationHandler) (w : World)
    (hf : w.isAnimating h.scope = false) (hfresh : ∀ t ∈ w.timers, t.id ≠ w.nextTimer) :
    (fireTimer env w.nextTimer (h.call w).2).timers = w.timers ∧
    (fireTimer env w.nextTimer (h.call w).2).isAnimating h.scope = false ∧
    h.animationClass ∉ (fireTimer env w.nextTimer (h.call w).2).classList h.elementId ∧
    (fireTimer env w.nextTimer (h.call w).2).now = w.now + 500 := by
  have hfind := find_append_fresh w.timers
    ⟨w.nextTimer, w.now + 500, none, Task.animationEnd h.scope h.elementId h.animationClass⟩
    hfresh
  have hfilter := filter_append_fresh w.timers
    ⟨w.nextTimer, w.now + 500, none, Task.animationEnd h.scope h.elementId h.animationClass⟩
    hfresh
  simp only [] at hfind hfilter
  rw [call_free h w hf]
  simp only [fireTimer, hfind, hfilter, runTask, World.removeClass, Function.update_same]
  exact ⟨trivial, trivial, not_mem_classListRemove _ _, by simp⟩

/-- C1: for the lock made by `createAnimationHandler(elementId, animationClass)`,
which starts free: a call while busy returns false and leaves the whole state
(flag, class lists, timers) as it was, and the box button then logs a warning;
a call while free returns true, sets the flag, adds the class to the element
and schedules exactly one timeout, `calculateDelay(500, 1) = 500` ms ahead,
whose body removes the class from the element and clears the flag. -/
theorem animationHandler_lock (env : Env) (elementId animationClass : String) (w0 w : World)
    (h : AnimationHandler) (hh : h = (createAnimationHandler elementId animationClass w0).1) :
    (createAnimationHandler elementId animationClass w0).2.isAnimating h.scope = false ∧
    (w.isAnimating h.scope = true → h.call w = (false, w)) ∧
    (w.isAnimating h.scope = true → w.boxAnimationHandler = h → ∀ r : Draw,
      (animateBoxClick env r w).calls = w.calls ++ [("Animation already in progress", "warning")]
      ∧ (animateBoxClick env r w).classList = w.classList
      ∧ (animateBoxClick env r w).timers = w.timers
      ∧ (animateBoxClick env r w).isAnimating = w.isAnimating) ∧
    (w.isAnimating h.scope = false →
      (h.call w).1 = true ∧
      (h.call w).2.isAnimating h.scope = true ∧
      (h.call w).2.classList elementId = classListAdd (w.classList elementId) animationClass ∧
      animationClass ∈ (h.call w).2.classList elementId ∧
      (∀ e, e ≠ elementId → (h.call w).2.classList e = w.classList e) ∧
      (calculateDelay 500 (some 1) w).1 = 500 ∧
      (h.call w).2.timers = w.timers ++
        [⟨w.nextTimer, w.now + 500, none, Task.animationEnd h.scope elementId animationClass⟩] ∧
      ((∀ t ∈ w.timers, t.id ≠ w.nextTimer) →
        (fireTimer env w.nextTimer (h.call w).2).timers = w.timers ∧
        (fireTimer env w.nextTimer (h.call w).2).isAnimating h.scope = false ∧
        animationClass ∉ (fireTimer env w.nextTimer (h.call w).2).classList elementId)) ∧
    (∀ w2 : World,
      animationClass ∉
        (runTask env (Task.animationEnd h.scope elementId animationClass) w2).classList elementId ∧
      (runTask env (Task.animationEnd h.scope elementId animationClass) w2).isAnimating h.scope
        = false) := by
  subst hh
  refine ⟨by simp [createAnimationHandler], call_busy _ w, ?_, ?_, ?_⟩
  · intro hb hbox r
    have hc := call_busy _ w hb
    rw [← hbox] at hc
    simp only [animateBoxClick, hc]
    exact ⟨rfl, rfl, rfl, rfl⟩
  · intro hf
    have hc := call_free _ w hf
    refine ⟨by rw [hc], by rw [hc]; simp, ?_, ?_, ?_, rfl, by rw [hc]; rfl, ?_⟩
    · rw [hc]; simp [createAnimationHandler]
    · rw [hc]; simp only [createAnimationHandler, Function.update_same]
      exact mem_classListAdd _ _
    · intro e he
      rw [hc]; simp [createAnimationHandler, Function.update, he]
    · intro hfresh
      have hfire := fire_fresh_removal env _ w hf hfresh
      exact ⟨hfire.1, hfire.2.1, hfire.2.2.1⟩
  · intro w2
    simp only [runTask, World.removeClass, Function.update_same]
    exact ⟨not_mem_classListRemove _ _, trivial⟩

theorem animationHandler_lock_witness :
    (loadScript blankPage).boxAnimationHandler =
      (createAnimationHandler "animatedBox" "animate" blankPage).1 ∧
    (loadScript blankPage).isAnimating 0 = false ∧
    ((loadScript blankPage).boxAnimationHandler.call (loadScript blankPage)).1 = true ∧
    (∀ t ∈ (loadScript blankPage).timers, t.id ≠ (loadScript blankPage).nextTimer) ∧
    (fireTimer plainEnv 1
      ((loadScript blankPage).boxAnimationHandler.call (loadScript blankPage)).2).isAnimating 0
      = false := by
  have hfresh : ∀ t ∈ (loadScript blankPage).timers, t.id ≠ (loadScript blankPage).nextTimer := by
    intro t ht; cases ht
  have h := animationHandler_lock plainEnv "animatedBox" "animate" blankPage
    (loadScript blankPage) (loadScript blankPage).boxAnimationHandler rfl
  exact ⟨rfl, rfl, (h.2.2.2.1 rfl).1, hfresh,
    ((h.2.2.2.1 rfl).2.2.2.2.2.2.2 hfresh).2.1⟩

theorem lockInv_call (h : AnimationHandler) (w : World) (hi : LockInv h w) :
    LockInv h (h.call w).2 := by
  by_cases hb : w.isAnimating h.scope = true
  · rw [call_busy h w hb]; exact hi
  · have hf : w.isAnimating h.scope = false := by simpa using hb
    obtain ⟨hwf, hper, hle, hiff⟩ := hi
    have h0 : (pendingRemovals h w).length = 0 := by
      have : ¬ (pendingRemovals h w).length = 1 := fun h1 => hb (hiff.mp h1)
      omega
    have hnew : isRemovalOf h.scope
        ⟨w.nextTimer, w.now + 500, none,
          Task.animationEnd h.scope h.elementId h.animationClass⟩ = true := by
      simp [isRemovalOf]
    have hlen : (pendingRemovals h (h.call w).2).length = 1 := by
      rw [call_free h w hf]
      simp only [pendingRemovals, List.filter_append, List.length_append] at h0 ⊢
      rw [h0, List.filter_cons_of_pos hnew]; simp
    refine ⟨?_, ?_, by omega, ?_⟩
    · rw [call_free h w hf]
      intro t ht
      simp only [List.mem_append, List.mem_singleton] at ht
      rcases ht with ht | rfl
      · exact Nat.lt_succ_of_lt (hwf t ht)
      · exact Nat.lt_succ_self _
    · rw [call_free h w hf]
      intro t ht hr
      simp only [List.mem_append, List.mem_singleton] at ht
      rcases ht with ht | rfl
      · exact hper t ht hr
      · rfl
    · constructor
      · intro _; rw [call_free h w hf]; simp
      · intro _; exact hlen

theorem lockInv_timeout (env : Env) (h : AnimationHandler) (id : Nat) (w : World)
    (hi : LockInv h w) : LockInv h (lockStep env h (LockEvent.timeout id) w) := by
  show LockInv h (match w.timers.find? (fun t => t.id = id) with
    | some t => if isRemovalOf h.scope t then fireTimer env id w else w
    | none => w)
  split
  next t hfind =>
    split
    next hrem =>
      obtain ⟨hwf, hper, hle, hiff⟩ := hi
      have hmem : t ∈ w.timers := List.mem_of_find?_eq_some hfind
      have hid : t.id = id := by simpa using List.find?_some hfind
      have hnone : t.period = none := hper t hmem hrem
      obtain ⟨s, e, c, htask, hs⟩ : ∃ s e c, t.task = Task.animationEnd s e c ∧ s = h.scope := by
        unfold isRemovalOf at hrem
        split at hrem
        next s e c heq => exact ⟨s, e, c, heq, by simpa using hrem⟩
        next => cases hrem
      subst hs
      have hfire : fireTimer env id w =
          { w with now := max w.now t.due,
                   timers := w.timers.filter (fun u => u.id ≠ id),
                   classList := Function.update w.classList e
                     (classListRemove (w.classList e) c),
                   isAnimating := Function.update w.isAnimating h.scope false } := by
        simp only [fireTimer, hfind, hnone, htask, runTask, World.removeClass]
      rw [hfire]
      have hlt : ((w.timers.filter (fun u => decide (u.id ≠ id))).filter
          (isRemovalOf h.scope)).length < (w.timers.filter (isRemovalOf h.scope)).length := by
        have hcomm : (w.timers.filter (fun u => decide (u.id ≠ id))).filter (isRemovalOf h.scope) =
            (w.timers.filter (isRemovalOf h.scope)).filter (fun u => decide (u.id ≠ id)) := by
          simp only [List.filter_filter, Bool.and_comm]
        rw [hcomm]
        apply List.length_filter_lt_length_iff_exists.mpr
        exact ⟨t, List.mem_filter.mpr ⟨hmem, hrem⟩, by simp [hid]⟩
      have hle1 : (w.timers.filter (isRemovalOf h.scope)).length ≤ 1 := hle
      have h0 : ((w.timers.filter (fun u => decide (u.id ≠ id))).filter
          (isRemovalOf h.scope)).length = 0 := by omega
      refine ⟨?_, ?_, ?_, ?_⟩
      · intro u hu
        exact hwf u (List.mem_of_mem_filter hu)
      · intro u hu hr
        exact hper u (List.mem_of_mem_filter hu) hr
      · show ((w.timers.filter (fun u => decide (u.id ≠ id))).filter
          (isRemovalOf h.scope)).length ≤ 1
        omega
      · show ((w.timers.filter (fun u => decide (u.id ≠ id))).filter
          (isRemovalOf h.scope)).length = 1 ↔ Function.update w.isAnimating h.scope false h.scope = true
        rw [h0, Function.update_same]; simp
    next => exact hi
  next => exact hi

theorem lockInv_step (env : Env) (h : AnimationHandler) (e : LockEvent) (w : World)
    (hi : LockInv h w) : LockInv h (lockStep env h e w) := by
  cases e with
  | call => exact lockInv_call h w hi
  | timeout id => exact lockInv_timeout env h id w hi

theorem lockInv_run (env : Env) (h : AnimationHandler) (events : List LockEvent) (w : World)
    (hi : LockInv h w) : LockInv h (lockRun env h events w) := by
  induction events generalizing w with
  | nil => exact hi
  | cons e es ih => exact ih _ (lockInv_step env h e w hi)

theorem lockInv_fresh (elementId animationClass : String) (w0 : World)
    (hwf : ∀ t ∈ w0.timers, t.id < w0.nextTimer)
    (hnew : ∀ t ∈ w0.timers, isRemovalOf w0.nextScope t = false) :
    LockInv (createAnimationHandler elementId animationClass w0).1
      (createAnimationHandler elementId animationClass w0).2 := by
  have h0 : w0.timers.filter (isRemovalOf w0.nextScope) = [] :=
    List.filter_eq_nil_iff.mpr (fun t ht => by simp [hnew t ht])
  refine ⟨hwf, ?_, ?_, ?_⟩
  · intro t ht hr
    have := hnew t ht
    simp only [createAnimationHandler] at hr
    rw [this] at hr; cases hr
  · show (w0.timers.filter (isRemovalOf w0.nextScope)).length ≤ 1
    rw [h0]; simp
  · show (w0.timers.filter (isRemovalOf w0.nextScope)).length = 1 ↔
      Function.update w0.isAnimating w0.nextScope false w0.nextScope = true
    rw [h0]; simp

theorem lockRun_calls_busy (env : Env) (h : AnimationHandler) (n : Nat) (w : World)
    (hb : w.isAnimating h.scope = true) :
    lockRun env h (List.replicate n LockEvent.call) w = w := by
  induction n with
  | zero => rfl
  | succ k ih =>
    simp only [lockRun, List.replicate_succ, List.foldl_cons, lockStep, call_busy h w hb]
    exact ih

theorem lockRun_append (env : Env) (h : AnimationHandler) (xs ys : List LockEvent) (w : World) :
    lockRun env h (xs ++ ys) w = lockRun env h ys (lockRun env h xs w) := by
  simp [lockRun, List.foldl_append]

theorem lockRun_call_then_timeout (env : Env) (h : AnimationHandler) (n : Nat) (w : World)
    (hi : LockInv h w) (hf : w.isAnimating h.scope = false) :
    lockRun env h
      (LockEvent.call :: List.replicate n LockEvent.call ++ [LockEvent.timeout w.nextTimer]) w
      = fireTimer env w.nextTimer (h.call w).2 := by
  have hfresh : ∀ t ∈ w.timers, t.id ≠ w.nextTimer := fun t ht => Nat.ne_of_lt (hi.1 t ht)
  have hbusy : (h.call w).2.isAnimating h.scope = true := by
    rw [call_free h w hf]; simp
  have hfind : (h.call w).2.timers.find? (fun t => decide (t.id = w.nextTimer)) =
      some ⟨w.nextTimer, w.now + 500, none,
        Task.animationEnd h.scope h.elementId h.animationClass⟩ := by
    rw [call_free h w hf]
    exact find_append_fresh w.timers
      ⟨w.nextTimer, w.now + 500, none, Task.animationEnd h.scope h.elementId h.animationClass⟩
      hfresh
  have hstep : lockStep env h (LockEvent.timeout w.nextTimer) (h.call w).2 =
      fireTimer env w.nextTimer (h.call w).2 := by
    show (match (h.call w).2.timers.find? (fun t => t.id = w.nextTimer) with
      | some t => if isRemovalOf h.scope t then fireTimer env w.nextTimer (h.call w).2
                  else (h.call w).2
      | none => (h.call w).2) = _
    rw [hfind]
    simp [isRemovalOf]
  have hcons : lockRun env h
      (LockEvent.call :: List.replicate n LockEvent.call ++ [LockEvent.timeout w.nextTimer]) w =
      lockRun env h (List.replicate n LockEvent.call ++ [LockEvent.timeout w.nextTimer])
        (h.call w).2 := rfl
  rw [hcons, lockRun_append, lockRun_calls_busy env h n _ hbusy]
  exact hstep

/-- C2: in every history of calls and timeout firings of a freshly made lock,
at most one of its class-removal timeouts is pending, and one is pending
exactly when `isAnimating` is true. Calls made while busy are dropped: from a
free lock, one call, any number `n` of further calls (each returning false and
changing nothing) and the firing of the timeout leave the lock free with no
removal timeout pending. -/
theorem lock_single_pending (env : Env) (elementId animationClass : String) (w0 : World)
    (hwf : ∀ t ∈ w0.timers, t.id < w0.nextTimer)
    (hnew : ∀ t ∈ w0.timers, isRemovalOf w0.nextScope t = false)
    (h : AnimationHandler) (w1 : World)
    (hh : (h, w1) = createAnimationHandler elementId animationClass w0)
    (events : List LockEvent) :
    (pendingRemovals h (lockRun env h events w1)).length ≤ 1 ∧
    ((pendingRemovals h (lockRun env h events w1)).length = 1 ↔
      (lockRun env h events w1).isAnimating h.scope = true) ∧
    ((lockRun env h events w1).isAnimating h.scope = false → ∀ n : Nat,
      (h.call (lockRun env h events w1)).1 = true ∧
      (h.call (h.call (lockRun env h events w1)).2) =
        (false, (h.call (lockRun env h events w1)).2) ∧
      lockRun env h (List.replicate n LockEvent.call) (h.call (lockRun env h events w1)).2 =
        (h.call (lockRun env h events w1)).2 ∧
      (pendingRemovals h (h.call (lockRun env h events w1)).2).length = 1 ∧
      (lockRun env h (LockEvent.call :: List.replicate n LockEvent.call ++
          [LockEvent.timeout (lockRun env h events w1).nextTimer])
        (lockRun env h events w1)).isAnimating h.scope = false ∧
      pendingRemovals h
        (lockRun env h (LockEvent.call :: List.replicate n LockEvent.call ++
            [LockEvent.timeout (lockRun env h events w1).nextTimer])
          (lockRun env h events w1)) = []) := by
  have h1 : h = (createAnimationHandler elementId animationClass w0).1 := by rw [← hh]
  have h2 : w1 = (createAnimationHandler elementId animationClass w0).2 := by rw [← hh]
  have hi0 : LockInv h w1 := by
    rw [h1, h2]; exact lockInv_fresh elementId animationClass w0 hwf hnew
  have hi := lockInv_run env h events w1 hi0
  refine ⟨hi.2.2.1, hi.2.2.2, ?_⟩
  intro hf n
  have hbusy : (h.call (lockRun env h events w1)).2.isAnimating h.scope = true := by
    rw [call_free h _ hf]; simp
  have hic := lockInv_call h _ hi
  have hfresh : ∀ t ∈ (lockRun env h events w1).timers,
      t.id ≠ (lockRun env h events w1).nextTimer := fun t ht => Nat.ne_of_lt (hi.1 t ht)
  have hfire := fire_fresh_removal env h _ hf hfresh
  have h0 : pendingRemovals h (lockRun env h events w1) = [] := by
    have hne : ¬ (pendingRemovals h (lockRun env h events w1)).length = 1 := by
      intro hl
      have := hi.2.2.2.mp hl
      rw [hf] at this; cases this
    have hle := hi.2.2.1
    exact List.length_eq_zero.mp (by omega)
  refine ⟨by rw [call_free h _ hf], call_busy h _ hbusy, lockRun_calls_busy env h n _ hbusy,
    hic.2.2.2.mpr hbusy, ?_, ?_⟩
  · rw [lockRun_call_then_timeout env h n _ hi hf]; exact hfire.2.1
  · rw [lockRun_call_then_timeout env h n _ hi hf]
    show (fireTimer env _ _).timers.filter (isRemovalOf h.scope) = []
    rw [hfire.1]; exact h0

theorem lock_single_pending_witness :
    (∀ t ∈ blankPage.timers, t.id < blankPage.nextTimer) ∧
    (∀ t ∈ blankPage.timers, isRemovalOf blankPage.nextScope t = false) ∧
    (pendingRemovals ⟨0, "animatedBox", "animate"⟩
      (lockRun plainEnv ⟨0, "animatedBox", "animate"⟩
        [LockEvent.call, LockEvent.call, LockEvent.timeout 1, LockEvent.call]
        (createAnimationHandler "animatedBox" "animate" blankPage).2)).length ≤ 1 := by
  have hwf : ∀ t ∈ blankPage.timers, t.id < blankPage.nextTimer := by
    intro t ht; cases ht
  have hnew : ∀ t ∈ blankPage.timers, isRemovalOf blankPage.nextScope t = false := by
    intro t ht; cases ht
  exact ⟨hwf, hnew,
    (lock_single_pending plainEnv "animatedBox" "animate" blankPage hwf hnew
      ⟨0, "animatedBox", "animate"⟩ _ rfl
      [LockEvent.call, LockEvent.call, LockEvent.timeout 1, LockEvent.call]).1⟩

/-! ## Flip card and loader -/

theorem flags_initFold (l : List String) (acc : Nat × World) :
    flags (l.foldl
      (fun (acc : Nat × World) element =>
        (acc.1 + 1, { acc.2 with hoverListeners := acc.2.hoverListeners ++ [element] }))
      acc).2 = flags acc.2 := by
  induction l generalizing acc with
  | nil => rfl
  | cons x xs ih =>
    simp only [List.foldl_cons]
    exact ih (acc.1 + 1, { acc.2 with hoverListeners := acc.2.hoverListeners ++ [x] })

theorem flags_call (h : AnimationHandler) (w : World) : flags (h.call w).2 = flags w := by
  unfold AnimationHandler.call
  split <;> rfl

theorem flags_countdownTick (env : Env)
    (hcb : ∀ k w, flags (env.callbacks k w) = flags w)
    (scope timer : Nat) (cb : Option Callback) (w : World) :
    flags (countdownTick env scope timer cb w) = flags w := by
  unfold countdownTick
  simp only []
  split
  · cases cb with
    | none => rfl
    | some c =>
      cases c with
      | demoComplete => rfl
      | external k => exact (hcb k _).trans rfl
  · rfl

theorem flags_fireTimer (env : Env)
    (hcb : ∀ k w, flags (env.callbacks k w) = flags w)
    (id : Nat) (w : World) : flags (fireTimer env id w) = flags w := by
  unfold fireTimer
  split
  · rfl
  next t _ =>
    cases ht : t.task with
    | animationEnd s e c => simp only [ht, runTask]; rfl
    | modalReveal => simp only [ht, runTask]; rfl
    | modalHidden => simp only [ht, runTask]; rfl
    | countdownTick s i c =>
      simp only [ht, runTask]
      exact (flags_countdownTick env hcb s i c _).trans rfl
    | demoCountdown => simp only [ht, runTask]; rfl

theorem flags_handle (env : Env)
    (hcb : ∀ k w, flags (env.callbacks k w) = flags w)
    (e : Event) (w : World) :
    flags (handle env e w) =
      (xor w.isCardFlipped (isFlipClick e), xor w.isLoaderActive (isLoaderClick e)) := by
  cases e with
  | domContentLoaded =>
    have h1 : flags (initializeInteractiveElements env w).2 = flags w := by
      unfold initializeInteractiveElements
      exact (flags_initFold _ (0, w))
    simp only [isFlipClick, isLoaderClick, Bool.xor_false]
    exact h1
  | clickAnimateBox r =>
    have h1 := flags_call w.boxAnimationHandler w
    simp only [isFlipClick, isLoaderClick, Bool.xor_false]
    show flags (animateBoxClick env r w) = _
    unfold animateBoxClick
    simp only []
    split <;> exact h1
  | clickFlipCard =>
    show flags (flipCardClick env w) = _
    unfold flipCardClick
    by_cases hf : w.isCardFlipped = true
    · simp [hf, flags, updateResults, World.removeClass, isFlipClick, isLoaderClick]
    · simp [hf, flags, updateResults, World.addClass, isFlipClick, isLoaderClick]
  | clickShowModal => simp [isFlipClick, isLoaderClick]; rfl
  | clickCloseModal => simp [isFlipClick, isLoaderClick]; rfl
  | clickModal target =>
    simp only [isFlipClick, isLoaderClick, Bool.xor_false]
    show flags (modalClick target w) = _
    unfold modalClick
    split <;> rfl
  | clickStartLoader =>
    show flags (toggleLoader env w).2 = _
    unfold toggleLoader
    by_cases hf : w.isLoaderActive = true
    · simp [hf, flags, updateResults, World.addClass, World.setTextContent, isFlipClick,
        isLoaderClick]
    · simp [hf, flags, updateResults, World.removeClass, World.setTextContent, isFlipClick,
        isLoaderClick]
  | mouseenter element r =>
    simp only [isFlipClick, isLoaderClick, Bool.xor_false]
    show flags (if element ∈ w.hoverListeners then hoverEnter env element r w else w) = _
    split <;> rfl
  | mouseleave element =>
    simp only [isFlipClick, isLoaderClick, Bool.xor_false]
    show flags (if element ∈ w.hoverListeners then hoverLeave element w else w) = _
    split <;> rfl
  | timer id =>
    simp only [isFlipClick, isLoaderClick, Bool.xor_false]
    exact flags_fireTimer env hcb id w
  | elapse ms => simp [isFlipClick, isLoaderClick]; rfl

theorem xor_parity (b c : Bool) (n : Nat) :
    xor (xor b c) (decide (n % 2 = 1)) = xor b (decide ((n + if c then 1 else 0) % 2 = 1)) := by
  cases b <;> cases c <;> by_cases h : n % 2 = 1 <;> simp [h] <;> omega

theorem flags_runEvents (env : Env)
    (hcb : ∀ k w, flags (env.callbacks k w) = flags w)
    (events : List Event) (w : World) :
    flags (runEvents env events w) =
      (xor w.isCardFlipped (decide (flipClicks events % 2 = 1)),
       xor w.isLoaderActive (decide (loaderClicks events % 2 = 1))) := by
  induction events generalizing w with
  | nil => simp [runEvents, flipClicks, loaderClicks, flags]
  | cons e es ih =>
    have hstep : runEvents env (e :: es) w = runEvents env es (handle env e w) := rfl
    have hh := flags_handle env hcb e w
    have h1 : (handle env e w).isCardFlipped = xor w.isCardFlipped (isFlipClick e) :=
      congrArg Prod.fst hh
    have h2 : (handle env e w).isLoaderActive = xor w.isLoaderActive (isLoaderClick e) :=
      congrArg Prod.snd hh
    rw [hstep, ih, h1, h2, xor_parity, xor_parity]
    have c1 : flipClicks (e :: es) = flipClicks es + if isFlipClick e then 1 else 0 := by
      simp [flipClicks, List.countP_cons]
    have c2 : loaderClicks (e :: es) = loaderClicks es + if isLoaderClick e then 1 else 0 := by
      simp [loaderClicks, List.countP_cons]
    rw [c1, c2]

theorem flipCardClick_spec (env : Env) (w : World) :
    (flipCardClick env w).isCardFlipped = !w.isCardFlipped ∧
    (flipCardClick env w).calls = w.calls ++
      [(if w.isCardFlipped then "Card flipped to front" else "Card flipped to back", "flip")] ∧
    ("flipped" ∈ (flipCardClick env w).classList card ↔ w.isCardFlipped = false) := by
  by_cases hf : w.isCardFlipped = true
  · refine ⟨?_, ?_, ?_⟩
    · simp [flipCardClick, hf, updateResults, World.removeClass]
    · simp [flipCardClick, hf, updateResults, World.removeClass]
    · simp [flipCardClick, hf, updateResults, World.removeClass, not_mem_classListRemove]
  · have hf2 : w.isCardFlipped = false := by simpa using hf
    refine ⟨?_, ?_, ?_⟩
    · simp [flipCardClick, hf2, updateResults, World.addClass]
    · simp [flipCardClick, hf2, updateResults, World.addClass]
    · simp [flipCardClick, hf2, updateResults, World.addClass, mem_classListAdd]

theorem toggleLoader_spec (env : Env) (w : World) :
    (toggleLoader env w).1 = !w.isLoaderActive ∧
    (toggleLoader env w).2.isLoaderActive = (toggleLoader env w).1 ∧
    (toggleLoader env w).2.calls = w.calls ++
      [(if w.isLoaderActive then "Loader stopped" else "Loader started", "loader")] := by
  by_cases hf : w.isLoaderActive = true
  · refine ⟨?_, ?_, ?_⟩ <;>
      simp [toggleLoader, hf, updateResults, World.addClass, World.setTextContent]
  · have hf2 : w.isLoaderActive = false := by simpa using hf
    refine ⟨?_, ?_, ?_⟩ <;>
      simp [toggleLoader, hf2, updateResults, World.removeClass, World.setTextContent]

theorem runEvents_append (env : Env) (xs ys : List Event) (w : World) :
    runEvents env (xs ++ ys) w = runEvents env ys (runEvents env xs w) := by
  simp [runEvents, List.foldl_append]

theorem flipClicks_replicate (n : Nat) :
    flipClicks (List.replicate n Event.clickFlipCard) = n := by
  induction n with
  | zero => rfl
  | succ k ih =>
    simp only [flipClicks, List.replicate_succ, List.countP_cons] at ih ⊢
    rw [ih]; rfl

theorem loaderClicks_replicate (n : Nat) :
    loaderClicks (List.replicate n Event.clickStartLoader) = n := by
  induction n with
  | zero => rfl
  | succ k ih =>
    simp only [loaderClicks, List.replicate_succ, List.countP_cons] at ih ⊢
    rw [ih]; rfl

theorem replicate_snoc {α : Type} (n : Nat) (a : α) :
    List.replicate (n + 1) a = List.replicate n a ++ [a] := by
  induction n with
  | zero => rfl
  | succ k ih => rw [List.replicate_succ, ih, ← List.cons_append, ← List.replicate_succ, ← ih]

theorem flip_calls_replicate (env : Env)
    (hcb : ∀ k w, flags (env.callbacks k w) = flags w) (page : World) (n : Nat) :
    (runEvents env (List.replicate n Event.clickFlipCard) (loadScript page)).calls =
      (List.range n).map flipLine := by
  induction n with
  | zero => rfl
  | succ k ih =>
    rw [replicate_snoc, runEvents_append, List.range_succ, List.map_append]
    have hfl := congrArg Prod.fst
      (flags_runEvents env hcb (List.replicate k Event.clickFlipCard) (loadScript page))
    have hfl2 : (runEvents env (List.replicate k Event.clickFlipCard)
        (loadScript page)).isCardFlipped = decide (k % 2 = 1) := by
      have : (loadScript page).isCardFlipped = false := rfl
      simpa [flags, this, flipClicks_replicate] using hfl
    show (flipCardClick env _).calls = _
    rw [(flipCardClick_spec env _).2.1, ih, hfl2]
    simp only [List.map_cons, List.map_nil, flipLine]
    by_cases hk : k % 2 = 1
    · have : ¬ k % 2 = 0 := by omega
      simp [hk, this]
    · have : k % 2 = 0 := by omega
      simp [hk, this]

theorem loader_calls_replicate (env : Env)
    (hcb : ∀ k w, flags (env.callbacks k w) = flags w) (page : World) (n : Nat) :
    (runEvents env (List.replicate n Event.clickStartLoader) (loadScript page)).calls =
      (List.range n).map loaderLine := by
  induction n with
  | zero => rfl
  | succ k ih =>
    rw [replicate_snoc, runEvents_append, List.range_succ, List.map_append]
    have hfl := congrArg Prod.snd
      (flags_runEvents env hcb (List.replicate k Event.clickStartLoader) (loadScript page))
    have hfl2 : (runEvents env (List.replicate k Event.clickStartLoader)
        (loadScript page)).isLoaderActive = decide (k % 2 = 1) := by
      have : (loadScript page).isLoaderActive = false := rfl
      simpa [flags, this, loaderClicks_replicate] using hfl
    show (toggleLoader env _).2.calls = _
    rw [(toggleLoader_spec env _).2.2, ih, hfl2]
    simp only [List.map_cons, List.map_nil, loaderLine]
    by_cases hk : k % 2 = 1
    · have : ¬ k % 2 = 0 := by omega
      simp [hk, this]
    · have : k % 2 = 0 := by omega
      simp [hk, this]

/-- C4: in any run of page events since the script was loaded, `isCardFlipped`
and `isLoaderActive` are true exactly when the number of clicks on their
button so far is odd; each click logs one line for its widget, the back /
started line on odd clicks and the front / stopped line on even clicks;
`toggleLoader` returns the new flag, true exactly on odd calls. After N clicks
and nothing else the log holds exactly N lines, and three clicks on Flip Card
leave the card flipped to the back with three flip lines. -/
theorem toggles_alternate (env : Env)
    (hcb : ∀ k w, flags (env.callbacks k w) = flags w) (page : World) :
    (∀ events : List Event,
      (runEvents env events (loadScript page)).isCardFlipped =
        decide (flipClicks events % 2 = 1) ∧
      (runEvents env events (loadScript page)).isLoaderActive =
        decide (loaderClicks events % 2 = 1) ∧
      (flipCardClick env (runEvents env events (loadScript page))).calls =
        (runEvents env events (loadScript page)).calls ++ [flipLine (flipClicks events)] ∧
      ("flipped" ∈ (flipCardClick env (runEvents env events (loadScript page))).classList card
        ↔ flipClicks events % 2 = 0) ∧
      (toggleLoader env (runEvents env events (loadScript page))).2.calls =
        (runEvents env events (loadScript page)).calls ++ [loaderLine (loaderClicks events)] ∧
      (toggleLoader env (runEvents env events (loadScript page))).1 =
        decide ((loaderClicks events + 1) % 2 = 1) ∧
      (toggleLoader env (runEvents env events (loadScript page))).2.isLoaderActive =
        (toggleLoader env (runEvents env events (loadScript page))).1) ∧
    (∀ N : Nat,
      (runEvents env (List.replicate N Event.clickFlipCard) (loadScript page)).isCardFlipped =
        decide (N % 2 = 1) ∧
      (runEvents env (List.replicate N Event.clickFlipCard) (loadScript page)).calls =
        (List.range N).map flipLine ∧
      (runEvents env (List.replicate N Event.clickStartLoader) (loadScript page)).isLoaderActive =
        decide (N % 2 = 1) ∧
      (runEvents env (List.replicate N Event.clickStartLoader) (loadScript page)).calls =
        (List.range N).map loaderLine) ∧
    ((runEvents env [Event.clickFlipCard, Event.clickFlipCard, Event.clickFlipCard]
        (loadScript page)).isCardFlipped = true ∧
     (runEvents env [Event.clickFlipCard, Event.clickFlipCard, Event.clickFlipCard]
        (loadScript page)).calls =
       [("Card flipped to back", "flip"), ("Card flipped to front", "flip"),
        ("Card flipped to back", "flip")] ∧
     "flipped" ∈ (runEvents env [Event.clickFlipCard, Event.clickFlipCard, Event.clickFlipCard]
        (loadScript page)).classList card) := by
  have hflag : ∀ events : List Event,
      (runEvents env events (loadScript page)).isCardFlipped =
        decide (flipClicks events % 2 = 1) ∧
      (runEvents env events (loadScript page)).isLoaderActive =
        decide (loaderClicks events % 2 = 1) := by
    intro events
    have h := flags_runEvents env hcb events (loadScript page)
    have h1 : (loadScript page).isCardFlipped = false := rfl
    have h2 : (loadScript page).isLoaderActive = false := rfl
    rw [h1, h2] at h
    simp only [Bool.false_xor] at h
    exact ⟨congrArg Prod.fst h, congrArg Prod.snd h⟩
  refine ⟨fun events => ?_, fun N => ?_, ?_⟩
  · obtain ⟨hf, hl⟩ := hflag events
    have hfc := flipCardClick_spec env (runEvents env events (loadScript page))
    have htl := toggleLoader_spec env (runEvents env events (loadScript page))
    refine ⟨hf, hl, ?_, ?_, ?_, ?_, htl.2.1⟩
    · rw [hfc.2.1, hf]
      by_cases hk : flipClicks events % 2 = 1
      · have : ¬ flipClicks events % 2 = 0 := by omega
        simp [flipLine, hk, this]
      · have : flipClicks events % 2 = 0 := by omega
        simp [flipLine, hk, this]
    · rw [hfc.2.2, hf]
      by_cases hk : flipClicks events % 2 = 1
      · have : ¬ flipClicks events % 2 = 0 := by omega
        simp [hk, this]
      · have : flipClicks events % 2 = 0 := by omega
        simp [hk, this]
    · rw [htl.2.2, hl]
      by_cases hk : loaderClicks events % 2 = 1
      · have : ¬ loaderClicks events % 2 = 0 := by omega
        simp [loaderLine, hk, this]
      · have : loaderClicks events % 2 = 0 := by omega
        simp [loaderLine, hk, this]
    · rw [htl.1, hl]
      by_cases hk : loaderClicks events % 2 = 1
      · have : ¬ (loaderClicks events + 1) % 2 = 1 := by omega
        simp [hk, this]
      · have : (loaderClicks events + 1) % 2 = 1 := by omega
        simp [hk, this]
  · have hf := (hflag (List.replicate N Event.clickFlipCard)).1
    have hl := (hflag (List.replicate N Event.clickStartLoader)).2
    rw [flipClicks_replicate] at hf
    rw [loaderClicks_replicate] at hl
    exact ⟨hf, flip_calls_replicate env hcb page N, hl, loader_calls_replicate env hcb page N⟩
  · have hf := (hflag [Event.clickFlipCard, Event.clickFlipCard, Event.clickFlipCard]).1
    have hc := flip_calls_replicate env hcb page 3
    have hm := (flipCardClick_spec env
      (runEvents env [Event.clickFlipCard, Event.clickFlipCard] (loadScript page))).2.2
    have h2 := (hflag [Event.clickFlipCard, Event.clickFlipCard]).1
    refine ⟨hf, hc, ?_⟩
    exact hm.mpr h2

theorem toggles_alternate_witness :
    (∀ k w, flags (plainEnv.callbacks k w) = flags w) ∧
    (runEvents plainEnv
      [Event.clickFlipCard, Event.clickStartLoader, Event.clickFlipCard, Event.clickFlipCard]
      (loadScript blankPage)).isCardFlipped = true ∧
    (runEvents plainEnv
      [Event.clickFlipCard, Event.clickStartLoader, Event.clickFlipCard, Event.clickFlipCard]
      (loadScript blankPage)).isLoaderActive = true := by
  have hcb : ∀ k w, flags (plainEnv.callbacks k w) = flags w := fun _ _ => rfl
  have h := (toggles_alternate plainEnv hcb blankPage).1
    [Event.clickFlipCard, Event.clickStartLoader, Event.clickFlipCard, Event.clickFlipCard]
  exact ⟨hcb, h.1, h.2.1⟩

/-! ## The countdown -/

theorem map_append_fresh (l : List Timer) (t : Timer) (d : Nat)
    (hfresh : ∀ u ∈ l, u.id ≠ t.id) :
    (l ++ [t]).map (fun u => if u.id = t.id then { u with due := d } else u) =
      l ++ [{ t with due := d }] := by
  rw [List.map_append]
  have h1 : l.map (fun u => if u.id = t.id then { u with due := d } else u) = l := by
    conv_rhs => rw [← List.map_id l]
    apply List.map_congr_left
    intro u hu
    simp [hfresh u hu]
  rw [h1]; simp

theorem countdownTick_continue (env : Env) (scope timer : Nat) (cb : Option Callback)
    (w : World) (hn : 0 ≤ roundToDouble (w.timeLeft scope - 1)) :
    countdownTick env scope timer cb w =
      { (updateResults env (countdownLine env (w.timeLeft scope)).1 (some "timer") w).2 with
        timeLeft := Function.update w.timeLeft scope (roundToDouble (w.timeLeft scope - 1)) } := by
  have hlt : ¬ (roundToDouble (w.timeLeft scope - 1) < 0) := by omega
  have hleft : ∀ m t, (updateResults env m t w).2.timeLeft = w.timeLeft := fun _ _ => rfl
  simp only [countdownTick, hleft, Function.update_same, hlt, if_false]
  rfl

theorem countdownTick_finish (env : Env) (scope timer : Nat) (cb : Option Callback)
    (w : World) (hn : roundToDouble (w.timeLeft scope - 1) < 0) :
    countdownTick env scope timer cb w =
      callIfFunction env cb
        (updateResults env "Countdown finished!" (some "timer")
          (clearInterval timer
            { (updateResults env (countdownLine env (w.timeLeft scope)).1 (some "timer") w).2 with
              timeLeft := Function.update w.timeLeft scope
                (roundToDouble (w.timeLeft scope - 1)) })).2 := by
  have hleft : ∀ m t, (updateResults env m t w).2.timeLeft = w.timeLeft := fun _ _ => rfl
  simp only [countdownTick, hleft, Function.update_same, hn, if_true]
  rfl

theorem tickLines_succ (env : Env) (left : Nat → Int) (k : Nat) :
    tickLines env left (k + 1) = tickLines env left k ++ [countdownLine env (left k)] := by
  simp [tickLines, List.range_succ]

theorem ticking_zero (env : Env) (left : Nat → Int) (cb : Option Callback) (w0 : World) :
    Ticking env w0 left cb 0 (createCountdownTimer (some (left 0)) cb w0).2 := by
  refine ⟨?_, ?_, ?_, ?_, ?_⟩
  · simp [createCountdownTimer, setInterval]
  · rfl
  · simp [createCountdownTimer, setInterval]
  · simp [createCountdownTimer, setInterval, tickLines]
  · rfl

theorem fire_ticking (env : Env) (left : Nat → Int) (cb : Option Callback) (w0 : World)
    (hfresh : ∀ t ∈ w0.timers, t.id ≠ w0.nextTimer) (k : Nat) (w : World)
    (ht : Ticking env w0 left cb k w) (cbs : Nat → World → World) :
    fireTimer { env with callbacks := cbs } w0.nextTimer w =
      countdownTick { env with callbacks := cbs } w0.nextScope w0.nextTimer cb
        { w with now := w0.now + 1000 * (k + 1),
                 timers := w0.timers ++
                   [⟨w0.nextTimer, w0.now + 1000 * (k + 1 + 1), some 1000,
                     Task.countdownTick w0.nextScope w0.nextTimer cb⟩] } := by
  obtain ⟨htm, hnow, -, -, -⟩ := ht
  have hfind := find_append_fresh w0.timers
    ⟨w0.nextTimer, w0.now + 1000 * (k + 1), some 1000,
      Task.countdownTick w0.nextScope w0.nextTimer cb⟩ hfresh
  have hmap := map_append_fresh w0.timers
    ⟨w0.nextTimer, w0.now + 1000 * (k + 1), some 1000,
      Task.countdownTick w0.nextScope w0.nextTimer cb⟩
    (w0.now + 1000 * (k + 1 + 1)) hfresh
  simp only [] at hfind hmap
  have hmax : max w.now (w0.now + 1000 * (k + 1)) = w0.now + 1000 * (k + 1) := by
    rw [hnow]; omega
  have hdue : w0.now + 1000 * (k + 1) + 1000 = w0.now + 1000 * (k + 1 + 1) := by ring
  simp only [fireTimer, htm, hfind, hmax, hdue, hmap, runTask]

theorem ticking_succ (env : Env) (left : Nat → Int) (cb : Option Callback) (w0 : World)
    (hfresh : ∀ t ∈ w0.timers, t.id ≠ w0.nextTimer) (k : Nat) (w : World)
    (ht : Ticking env w0 left cb k w)
    (hstep : roundToDouble (left k - 1) = left (k + 1)) (hk : 0 ≤ left (k + 1))
    (cbs : Nat → World → World) :
    fireTimer { env with callbacks := cbs } w0.nextTimer w = fireTimer env w0.nextTimer w ∧
    Ticking env w0 left cb (k + 1) (fireTimer env w0.nextTimer w) := by
  have h1 := fire_ticking env left cb w0 hfresh k w ht cbs
  have h2 := fire_ticking env left cb w0 hfresh k w ht env.callbacks
  obtain ⟨htm, hnow, hleft, hcalls, hcount⟩ := ht
  have hn : 0 ≤ roundToDouble (w.timeLeft w0.nextScope - 1) := by
    rw [hleft, hstep]; exact hk
  have e1 := countdownTick_continue { env with callbacks := cbs } w0.nextScope w0.nextTimer cb
    { w with now := w0.now + 1000 * (k + 1),
             timers := w0.timers ++
               [⟨w0.nextTimer, w0.now + 1000 * (k + 1 + 1), some 1000,
                 Task.countdownTick w0.nextScope w0.nextTimer cb⟩] } hn
  have e2 := countdownTick_continue env w0.nextScope w0.nextTimer cb
    { w with now := w0.now + 1000 * (k + 1),
             timers := w0.timers ++
               [⟨w0.nextTimer, w0.now + 1000 * (k + 1 + 1), some 1000,
                 Task.countdownTick w0.nextScope w0.nextTimer cb⟩] } hn
  have h2b : fireTimer env w0.nextTimer w = _ := h2.trans e2
  refine ⟨(h1.trans e1).trans h2b.symm, ?_⟩
  rw [h2b]
  refine ⟨rfl, rfl, ?_, ?_, ?_⟩
  · show Function.update w.timeLeft w0.nextScope
      (roundToDouble (w.timeLeft w0.nextScope - 1)) w0.nextScope = _
    rw [Function.update_same, hleft, hstep]
  · show w.calls ++ [((countdownLine env (w.timeLeft w0.nextScope)).1, "timer")] = _
    rw [hcalls, tickLines_succ, hleft, List.append_assoc]; rfl
  · show w.animationCount + 1 = _
    rw [hcount]; ring

theorem ticking_last (env : Env) (left : Nat → Int) (cb : Option Callback) (w0 : World)
    (hfresh : ∀ t ∈ w0.timers, t.id ≠ w0.nextTimer) (k : Nat) (w : World)
    (ht : Ticking env w0 left cb k w) (hk : roundToDouble (left k - 1) < 0) :
    ∃ w1, (∀ cbs : Nat → World → World,
        fireTimer { env with callbacks := cbs } w0.nextTimer w =
          callIfFunction { env with callbacks := cbs } cb w1) ∧
      Finished env w0 left (k + 1) w1 := by
  have hneg : roundToDouble (w.timeLeft w0.nextScope - 1) < 0 := by rw [ht.2.2.1]; exact hk
  have hfire : ∀ cbs : Nat → World → World,
      fireTimer { env with callbacks := cbs } w0.nextTimer w =
        callIfFunction { env with callbacks := cbs } cb
        (updateResults env "Countdown finished!" (some "timer")
          (clearInterval w0.nextTimer
            { (updateResults env (countdownLine env (w.timeLeft w0.nextScope)).1 (some "timer")
                { w with now := w0.now + 1000 * (k + 1),
                         timers := w0.timers ++
                           [⟨w0.nextTimer, w0.now + 1000 * (k + 1 + 1), some 1000,
                             Task.countdownTick w0.nextScope w0.nextTimer cb⟩] }).2 with
              timeLeft := Function.update w.timeLeft w0.nextScope
                (roundToDouble (w.timeLeft w0.nextScope - 1)) })).2 := by
    intro cbs
    rw [fire_ticking env left cb w0 hfresh k w ht cbs,
      countdownTick_finish _ _ _ _ _ (by exact hneg)]
    rfl
  obtain ⟨htm, hnow, hleft, hcalls, hcount⟩ := ht
  refine ⟨_, hfire, ?_, rfl, ?_, ?_⟩
  · have hfilter := filter_append_fresh w0.timers
      ⟨w0.nextTimer, w0.now + 1000 * (k + 1 + 1), some 1000,
        Task.countdownTick w0.nextScope w0.nextTimer cb⟩ hfresh
    exact hfilter
  · show (w.calls ++ [((countdownLine env (w.timeLeft w0.nextScope)).1, "timer")]) ++
      [("Countdown finished!", "timer")] = _
    rw [hcalls, tickLines_succ, hleft]
    simp only [List.append_assoc]; rfl
  · show w.animationCount + 1 + 1 = _
    rw [hcount]; ring

theorem fireTimes_succ (env : Env) (id k : Nat) (w : World) :
    fireTimes env id (k + 1) w = fireTimer env id (fireTimes env id k w) := by
  simp only [fireTimes, Function.iterate_succ_apply']

theorem ticking_run (env : Env) (left : Nat → Int) (cb : Option Callback) (w0 : World)
    (hfresh : ∀ t ∈ w0.timers, t.id ≠ w0.nextTimer) (n : Nat)
    (hstep : ∀ k < n, roundToDouble (left k - 1) = left (k + 1) ∧ 0 ≤ left (k + 1))
    (cbs : Nat → World → World) (k : Nat) (hk : k ≤ n) :
    fireTimes { env with callbacks := cbs } w0.nextTimer k
        (createCountdownTimer (some (left 0)) cb w0).2 =
      fireTimes env w0.nextTimer k (createCountdownTimer (some (left 0)) cb w0).2 ∧
    Ticking env w0 left cb k
      (fireTimes env w0.nextTimer k (createCountdownTimer (some (left 0)) cb w0).2) := by
  induction k with
  | zero =>
    have h0 : ∀ (e : Env) (w : World), fireTimes e w0.nextTimer 0 w = w := fun _ _ => rfl
    rw [h0, h0]
    exact ⟨rfl, ticking_zero env left cb w0⟩
  | succ m ih =>
    obtain ⟨ih1, ih2⟩ := ih (by omega)
    obtain ⟨hs1, hs2⟩ := hstep m (by omega)
    obtain ⟨h1, h2⟩ := ticking_succ env left cb w0 hfresh m _ ih2 hs1 hs2 cbs
    rw [fireTimes_succ, fireTimes_succ, ih1]
    exact ⟨h1, h2⟩

theorem fireTimes_absent (env : Env) (id : Nat) (w : World)
    (habs : ∀ t ∈ w.timers, t.id ≠ id) (m : Nat) : fireTimes env id m w = w := by
  have h1 : fireTimer env id w = w := by
    have hfind : w.timers.find? (fun t => decide (t.id = id)) = none :=
      List.find?_eq_none.mpr (fun t ht => by simpa using habs t ht)
    simp only [fireTimer, hfind]
  induction m with
  | zero => rfl
  | succ n ih => rw [fireTimes_succ, ih, h1]

theorem pending_of_ticking {env : Env} {w0 : World} {left : Nat → Int} {cb : Option Callback}
    {k : Nat} {w : World} (ht : Ticking env w0 left cb k w) :
    ∃ t ∈ w.timers, t.id = w0.nextTimer := by
  rw [ht.1]
  exact ⟨_, List.mem_append_right _ (List.mem_singleton_self _), rfl⟩

theorem finished_absent {env : Env} {w0 : World} {left : Nat → Int} {k : Nat} {w : World}
    (hfresh : ∀ t ∈ w0.timers, t.id ≠ w0.nextTimer) (hf : Finished env w0 left k w) :
    ∀ t ∈ w.timers, t.id ≠ w0.nextTimer := by
  rw [hf.1]; exact hfresh

/-- The steps of a countdown from `D ≤ 2 ^ 53`: each decrement before the last is
exact and stays at or above zero, the last goes below zero. -/
theorem safe_steps (D : Int) (hD : D ≤ 2 ^ 53) :
    (∀ k < D.toNat, roundToDouble (D - (k : Int) - 1) = D - ((k + 1 : Nat) : Int) ∧
      0 ≤ D - ((k + 1 : Nat) : Int)) ∧
    roundToDouble (D - (D.toNat : Int) - 1) < 0 := by
  constructor
  · intro k hk
    have hsmall : (D - (k : Int) - 1).natAbs < 2 ^ 53 := by omega
    rw [roundToDouble_small _ hsmall]
    constructor
    · push_cast; ring
    · push_cast; omega
  · apply roundToDouble_neg
    omega

theorem countdown_finishes (env : Env) (D : Int) (hD : D ≤ 2 ^ 53) (cb : Option Callback)
    (w0 : World) (hfresh : ∀ t ∈ w0.timers, t.id ≠ w0.nextTimer) :
    ∃ w1, (∀ cbs : Nat → World → World,
        fireTimes { env with callbacks := cbs } w0.nextTimer (D.toNat + 1)
            (createCountdownTimer (some D) cb w0).2
          = callIfFunction { env with callbacks := cbs } cb w1) ∧
      Finished env w0 (fun (i : Nat) => D - (i : Int)) (D.toNat + 1) w1 := by
  obtain ⟨hsteps, hlast⟩ := safe_steps D hD
  have hD0 : (fun (i : Nat) => D - (i : Int)) 0 = D := by simp
  have hrun := fun cbs => ticking_run env (fun (i : Nat) => D - (i : Int)) cb w0 hfresh D.toNat
    hsteps cbs D.toNat (le_refl _)
  simp only [hD0] at hrun
  obtain ⟨w1, h1, hF⟩ := ticking_last env (fun (i : Nat) => D - (i : Int)) cb w0 hfresh D.toNat _
    (hrun env.callbacks).2 hlast
  refine ⟨w1, ?_, hF⟩
  intro cbs
  rw [fireTimes_succ, (hrun cbs).1]
  exact h1 cbs

theorem numberToString_safe (env : Env) (x : Int) (h : x.natAbs ≤ 2 ^ 53) :
    numberToString env x = toString x := by
  simp only [numberToString, h, if_true]

theorem countdownLines_safe (env : Env) (D : Nat) (hD : D ≤ 2 ^ 53) (k : Nat)
    (hk : k ≤ D + 1) :
    countdownLines env D k =
      (List.range k).map
        (fun (i : Nat) =>
          ("Countdown: " ++ toString ((D : Int) - (i : Int)) ++ " seconds", "timer")) := by
  simp only [countdownLines, tickLines, countdownLine]
  apply List.map_congr_left
  intro i hi
  have hik : i < k := List.mem_range.mp hi
  rw [numberToString_safe env _ (by omega)]

/-- C3: for a duration `0 ≤ D ≤ 2 ^ 53`, the interval made by
`createCountdownTimer(D, C)`, left to run, passes to `updateResults` exactly the
tick messages for `D`, `D - 1`, ..., `0` in that order and then
`Countdown finished!`; the interval is then cleared and `C` is called once, as
the last step; later runs of the timer do nothing. The first `D` ticks, and the
state `w1` in which `C` is called, are the same whatever the callbacks do, so
`C` is called at no other point. After `k ≤ D` ticks the timer is still
pending. `D = 0` gives the single tick line `0`, `D = 3` the ticks 3, 2, 1, 0. -/
theorem countdown_ticks_then_callback (env : Env) (D : Nat) (hD : D ≤ 2 ^ 53)
    (cb : Option Callback) (w0 : World) (hfresh : ∀ t ∈ w0.timers, t.id ≠ w0.nextTimer) :
    (createCountdownTimer (some (D : Int)) cb w0).1 = w0.nextTimer ∧
    (∀ k ≤ D,
      (fireTimes env w0.nextTimer k (createCountdownTimer (some (D : Int)) cb w0).2).calls =
        w0.calls ++ (List.range k).map
          (fun (i : Nat) =>
            ("Countdown: " ++ toString ((D : Int) - (i : Int)) ++ " seconds", "timer")) ∧
      ∃ t ∈ (fireTimes env w0.nextTimer k
          (createCountdownTimer (some (D : Int)) cb w0).2).timers, t.id = w0.nextTimer) ∧
    (∀ cbs : Nat → World → World, ∀ k ≤ D,
      fireTimes { env with callbacks := cbs } w0.nextTimer k
          (createCountdownTimer (some (D : Int)) cb w0).2 =
        fireTimes env w0.nextTimer k (createCountdownTimer (some (D : Int)) cb w0).2) ∧
    (∃ w1 : World,
      (∀ cbs : Nat → World → World,
        fireTimes { env with callbacks := cbs } w0.nextTimer (D + 1)
            (createCountdownTimer (some (D : Int)) cb w0).2 =
          callIfFunction { env with callbacks := cbs } cb w1) ∧
      fireTimes env w0.nextTimer (D + 1) (createCountdownTimer (some (D : Int)) cb w0).2 =
        callIfFunction env cb w1 ∧
      w1.calls = w0.calls ++
        (List.range (D + 1)).map
          (fun (i : Nat) =>
            ("Countdown: " ++ toString ((D : Int) - (i : Int)) ++ " seconds", "timer"))
        ++ [("Countdown finished!", "timer")] ∧
      w1.animationCount = w0.animationCount + (D + 1) + 1 ∧
      w1.timers = w0.timers ∧
      (∀ t ∈ w1.timers, t.id ≠ w0.nextTimer) ∧
      (∀ m : Nat, fireTimes env w0.nextTimer m w1 = w1) ∧
      ((callIfFunction env cb w1).timers = w1.timers → ∀ m : Nat,
        fireTimes env w0.nextTimer m (callIfFunction env cb w1) = callIfFunction env cb w1)) ∧
    (∀ w : World, callIfFunction env none w = w) ∧
    (∀ (k : Nat) (w : World), callIfFunction env (some (Callback.external k)) w =
      env.callbacks k w) ∧
    (cb = some Callback.demoComplete →
      (fireTimes env w0.nextTimer (D + 1)
        (createCountdownTimer (some (D : Int)) cb w0).2).calls =
        w0.calls ++ countdownLines env D (D + 1) ++
          [("Countdown finished!", "timer"), ("Demo initialization complete!", "success")]) ∧
    countdownLines env 0 1 = [("Countdown: 0 seconds", "timer")] ∧
    countdownLines env 3 4 =
      [("Countdown: 3 seconds", "timer"), ("Countdown: 2 seconds", "timer"),
       ("Countdown: 1 seconds", "timer"), ("Countdown: 0 seconds", "timer")] := by
  have hDi : ((D : Nat) : Int) ≤ 2 ^ 53 := by exact_mod_cast hD
  have hDn : ((D : Int)).toNat = D := Int.toNat_natCast D
  obtain ⟨hsteps, -⟩ := safe_steps (D : Int) hDi
  rw [hDn] at hsteps
  have hrun := fun cbs k hk => ticking_run env (fun (i : Nat) => (D : Int) - (i : Int)) cb w0
    hfresh D hsteps cbs k hk
  have hD0 : (fun (i : Nat) => (D : Int) - (i : Int)) 0 = (D : Int) := by simp
  simp only [hD0] at hrun
  obtain ⟨w1, hfin, hF⟩ := countdown_finishes env (D : Int) hDi cb w0 hfresh
  rw [hDn] at hfin hF
  have hfin0 : fireTimes env w0.nextTimer (D + 1)
      (createCountdownTimer (some (D : Int)) cb w0).2 = callIfFunction env cb w1 :=
    hfin env.callbacks
  have hcalls : w1.calls = w0.calls ++ countdownLines env D (D + 1) ++
      [("Countdown finished!", "timer")] := hF.2.2.1
  refine ⟨rfl, ?_, ?_, ⟨w1, hfin, hfin0, ?_, hF.2.2.2, hF.1, finished_absent hfresh hF,
    fireTimes_absent env _ w1 (finished_absent hfresh hF), ?_⟩, fun _ => rfl, fun _ _ => rfl,
    ?_, rfl, rfl⟩
  · intro k hk
    have ht := (hrun env.callbacks k hk).2
    refine ⟨?_, pending_of_ticking ht⟩
    rw [ht.2.2.2.1, ← countdownLines_safe env D hD k (by omega)]
    rfl
  · intro cbs k hk
    exact (hrun cbs k hk).1
  · rw [hcalls, countdownLines_safe env D hD (D + 1) (le_refl _)]
  · intro hkeep m
    apply fireTimes_absent
    rw [hkeep]; exact finished_absent hfresh hF
  · intro hcb
    rw [hfin0, hcb]
    show w1.calls ++ [("Demo initialization complete!", "success")] = _
    rw [hcalls]; simp

theorem countdown_ticks_then_callback_witness :
    ((3 : Nat) ≤ 2 ^ 53) ∧
    (∀ t ∈ (loadScript blankPage).timers, t.id ≠ (loadScript blankPage).nextTimer) ∧
    (fireTimes plainEnv 1 4
      (createCountdownTimer (some 3) (some Callback.demoComplete) (loadScript blankPage)).2).calls
      = [("Countdown: 3 seconds", "timer"), ("Countdown: 2 seconds", "timer"),
         ("Countdown: 1 seconds", "timer"), ("Countdown: 0 seconds", "timer"),
         ("Countdown finished!", "timer"), ("Demo initialization complete!", "success")] := by
  have hfresh : ∀ t ∈ (loadScript blankPage).timers,
      t.id ≠ (loadScript blankPage).nextTimer := by
    intro t ht; cases ht
  have h := (countdown_ticks_then_callback plainEnv 3 (by norm_num)
    (some Callback.demoComplete) (loadScript blankPage) hfresh).2.2.2.2.2.2
  exact ⟨by norm_num, hfresh, (h.1 rfl).trans (by
    have h34 : countdownLines plainEnv ((3 : Nat) : Int) (3 + 1) = countdownLines plainEnv 3 4 :=
      rfl
    rw [h34, h.2.2]; rfl)⟩

theorem roundToDouble_stall : roundToDouble (9007199254740996 - 1) = 9007199254740996 := by
  have hsize : Nat.size 9007199254740995 = 54 := by
    apply le_antisymm
    · exact Nat.size_le.mpr (by norm_num)
    · exact Nat.lt_size.mpr (by norm_num)
  have hm : roundMantissa 9007199254740995 = 9007199254740996 := by
    unfold roundMantissa
    rw [hsize]
    norm_num
  have hx : ((9007199254740996 : Int) - 1).natAbs = 9007199254740995 := by norm_num
  have hs : ((9007199254740996 : Int) - 1).sign = 1 := Int.sign_eq_one_of_pos (by norm_num)
  simp only [roundToDouble, hx, hm, hs]
  norm_num

theorem toString_stall : toString (9007199254740996 : Int) = "9007199254740996" := by
  have h : Nat.toDigits 10 9007199254740996 = "9007199254740996".data := by
    simp [Nat.toDigits, Nat.toDigitsCore, Nat.digitChar]
  show Int.repr 9007199254740996 = _
  have hi : (9007199254740996 : Int) = Int.ofNat 9007199254740996 := rfl
  rw [hi]
  simp only [Int.repr, Nat.repr, h]
  rfl

theorem countdownLine_stall :
    countdownLine plainEnv 9007199254740996 = ("Countdown: 9007199254740996 seconds", "timer") := by
  have hbig : ¬ ((9007199254740996 : Int).natAbs ≤ 2 ^ 53) := by norm_num
  have hn : numberToString plainEnv 9007199254740996 = "9007199254740996" := by
    simp only [numberToString, hbig, if_false]
    exact toString_stall
  simp only [countdownLine, hn]
  rfl

theorem stalled_run (env : Env) (cb : Option Callback) (w0 : World)
    (hfresh : ∀ t ∈ w0.timers, t.id ≠ w0.nextTimer) (k : Nat) :
    Ticking env w0 (fun _ => 9007199254740996) cb k
      (fireTimes env w0.nextTimer k
        (createCountdownTimer (some 9007199254740996) cb w0).2) :=
  (ticking_run env (fun _ => 9007199254740996) cb w0 hfresh k
    (fun _ _ => ⟨roundToDouble_stall, by norm_num⟩) env.callbacks k (le_refl _)).2

/-- At `D = 9007199254740996` (`2 ^ 53 + 4`) the decrement `timeLeft--` rounds back
to `D`: the second tick logs `D` again, not `D - 1`. -/
theorem countdown_repeats_above_safe_range :
    roundToDouble (9007199254740996 - 1) = 9007199254740996 ∧
    (fireTimes plainEnv 1 2
      (createCountdownTimer (some 9007199254740996) none (loadScript blankPage)).2).calls =
      [("Countdown: 9007199254740996 seconds", "timer"),
       ("Countdown: 9007199254740996 seconds", "timer")] ∧
    (fireTimes plainEnv 1 2
      (createCountdownTimer (some 9007199254740996) none (loadScript blankPage)).2).calls ≠
      [("Countdown: 9007199254740996 seconds", "timer"),
       ("Countdown: 9007199254740995 seconds", "timer")] ∧
    (fireTimes plainEnv 1 2
      (createCountdownTimer (some 9007199254740996) none (loadScript blankPage)).2).timeLeft 1
      = 9007199254740996 := by
  have hfresh : ∀ t ∈ (loadScript blankPage).timers,
      t.id ≠ (loadScript blankPage).nextTimer := by
    intro t ht; cases ht
  have hid : (loadScript blankPage).nextTimer = 1 := rfl
  have hsc : (loadScript blankPage).nextScope = 1 := rfl
  have hc0 : (loadScript blankPage).calls = [] := rfl
  obtain ⟨-, -, hleft, hcalls, -⟩ := stalled_run plainEnv none (loadScript blankPage) hfresh 2
  rw [hid, hsc] at hleft
  rw [hid, hc0] at hcalls
  simp only [tickLines, List.range_succ, List.range_zero, List.nil_append, List.map_append,
    List.map_cons, List.map_nil, countdownLine_stall, List.singleton_append] at hcalls
  refine ⟨roundToDouble_stall, hcalls, ?_, hleft⟩
  rw [hcalls]
  decide

/-- C9: for a negative duration `D`, the interval made by
`createCountdownTimer(D, C)` logs one tick message showing `D`, then
`Countdown finished!`, is cleared, and `C` is called once as the last step, on
a state that does not depend on what the callbacks do. For every integer
`D ≤ 2 ^ 53` the timer is still pending after fewer than `max(D, 0) + 1` ticks
and is cleared by tick number `max(D, 0) + 1`, after which running it does
nothing. -/
theorem countdown_always_stops (env : Env) (D : Int) (cb : Option Callback)
    (w0 : World) (hfresh : ∀ t ∈ w0.timers, t.id ≠ w0.nextTimer) :
    (D < 0 → ∃ w1 : World,
      (∀ cbs : Nat → World → World,
        fireTimes { env with callbacks := cbs } w0.nextTimer 1
            (createCountdownTimer (some D) cb w0).2 =
          callIfFunction { env with callbacks := cbs } cb w1) ∧
      fireTimes env w0.nextTimer 1 (createCountdownTimer (some D) cb w0).2 =
        callIfFunction env cb w1 ∧
      w1.calls = w0.calls ++
        [("Countdown: " ++ numberToString env D ++ " seconds", "timer"),
         ("Countdown finished!", "timer")] ∧
      (-(2 ^ 53) ≤ D → numberToString env D = toString D) ∧
      w1.timers = w0.timers ∧
      (∀ t ∈ w1.timers, t.id ≠ w0.nextTimer) ∧
      ∀ m : Nat, fireTimes env w0.nextTimer m w1 = w1) ∧
    (D ≤ 2 ^ 53 →
      ((D.toNat : Int) = max D 0) ∧
      (∀ k < D.toNat + 1,
        ∃ t ∈ (fireTimes env w0.nextTimer k (createCountdownTimer (some D) cb w0).2).timers,
          t.id = w0.nextTimer) ∧
      (∃ w1 : World,
        (∀ cbs : Nat → World → World,
          fireTimes { env with callbacks := cbs } w0.nextTimer (D.toNat + 1)
              (createCountdownTimer (some D) cb w0).2 =
            callIfFunction { env with callbacks := cbs } cb w1) ∧
        fireTimes env w0.nextTimer (D.toNat + 1) (createCountdownTimer (some D) cb w0).2 =
          callIfFunction env cb w1 ∧
        w1.calls = w0.calls ++ countdownLines env D (D.toNat + 1) ++
          [("Countdown finished!", "timer")] ∧
        (countdownLines env D (D.toNat + 1)).length = D.toNat + 1 ∧
        (∀ t ∈ w1.timers, t.id ≠ w0.nextTimer) ∧
        ∀ m : Nat, fireTimes env w0.nextTimer m w1 = w1)) := by
  constructor
  · intro hneg
    have hD : D ≤ 2 ^ 53 := by omega
    obtain ⟨w1, hfin, hF⟩ := countdown_finishes env D hD cb w0 hfresh
    have h0 : D.toNat = 0 := by omega
    rw [h0] at hfin hF
    refine ⟨w1, hfin, hfin env.callbacks, ?_, ?_, hF.1, finished_absent hfresh hF,
      fireTimes_absent env _ w1 (finished_absent hfresh hF)⟩
    · rw [hF.2.2.1]
      simp [tickLines, countdownLine, List.range_succ]
    · intro hlo
      exact numberToString_safe env D (by omega)
  · intro hD
    obtain ⟨w1, hfin, hF⟩ := countdown_finishes env D hD cb w0 hfresh
    obtain ⟨hsteps, -⟩ := safe_steps D hD
    refine ⟨by omega, ?_, ⟨w1, hfin, hfin env.callbacks, hF.2.2.1,
      by simp [countdownLines, tickLines],
      finished_absent hfresh hF, fireTimes_absent env _ w1 (finished_absent hfresh hF)⟩⟩
    intro k hk
    have hrun := ticking_run env (fun (i : Nat) => D - (i : Int)) cb w0 hfresh D.toNat hsteps
      env.callbacks k (by omega)
    have hD0 : (fun (i : Nat) => D - (i : Int)) 0 = D := by simp
    simp only [hD0] at hrun
    exact pending_of_ticking hrun.2

theorem countdown_always_stops_witness :
    (∀ t ∈ (loadScript blankPage).timers, t.id ≠ (loadScript blankPage).nextTimer) ∧
    ((-2 : Int) < 0) ∧
    ∃ w1 : World,
      fireTimes plainEnv 1 1 (createCountdownTimer (some (-2)) none (loadScript blankPage)).2 =
        callIfFunction plainEnv none w1 ∧
      w1.calls = [("Countdown: -2 seconds", "timer"), ("Countdown finished!", "timer")] := by
  have hfresh : ∀ t ∈ (loadScript blankPage).timers,
      t.id ≠ (loadScript blankPage).nextTimer := by
    intro t ht; cases ht
  obtain ⟨w1, -, h1, h2, -⟩ := (countdown_always_stops plainEnv (-2) none
    (loadScript blankPage) hfresh).1 (by decide)
  exact ⟨hfresh, by decide, w1, h1, h2⟩

/-- At `D = 9007199254740996` (`2 ^ 53 + 4`) the interval is never cleared: it is
still pending after `max(D, 0) + 1` ticks, and after any number of ticks, with
`timeLeft` still `D`. -/
theorem countdown_never_stops_above_safe_range :
    (∃ t ∈ (fireTimes plainEnv 1 9007199254740997
        (createCountdownTimer (some 9007199254740996) none (loadScript blankPage)).2).timers,
      t.id = 1) ∧
    (∀ k : Nat,
      (∃ t ∈ (fireTimes plainEnv 1 k
          (createCountdownTimer (some 9007199254740996) none (loadScript blankPage)).2).timers,
        t.id = 1) ∧
      (fireTimes plainEnv 1 k
        (createCountdownTimer (some 9007199254740996) none (loadScript blankPage)).2).timeLeft 1
        = 9007199254740996) := by
  have hfresh : ∀ t ∈ (loadScript blankPage).timers,
      t.id ≠ (loadScript blankPage).nextTimer := by
    intro t ht; cases ht
  have hid : (loadScript blankPage).nextTimer = 1 := rfl
  have hsc : (loadScript blankPage).nextScope = 1 := rfl
  have hall : ∀ k : Nat,
      (∃ t ∈ (fireTimes plainEnv 1 k
          (createCountdownTimer (some 9007199254740996) none (loadScript blankPage)).2).timers,
        t.id = 1) ∧
      (fireTimes plainEnv 1 k
        (createCountdownTimer (some 9007199254740996) none (loadScript blankPage)).2).timeLeft 1
        = 9007199254740996 := by
    intro k
    have ht := stalled_run plainEnv none (loadScript blankPage) hfresh k
    have hp := pending_of_ticking ht
    have hl := ht.2.2.1
    rw [hid] at hp
    rw [hid, hsc] at hl
    exact ⟨hp, hl⟩
  exact ⟨(hall 9007199254740997).1, hall⟩

/-! ## The modal -/

theorem runTimers_idle (env : Env) (fuel : Nat) (w : World) (hw : w.timers = []) :
    runTimers env fuel w = w := by
  cases fuel with
  | zero => rfl
  | succ n => simp [runTimers, hw, earliest]

theorem runTimers_step (env : Env) (fuel : Nat) (w : World) (t : Timer)
    (he : earliest w.timers = some t) :
    runTimers env (fuel + 1) w = runTimers env fuel (fireTimer env t.id w) := by
  simp [runTimers, he]

theorem overlap_schedule (w : World) (hw : w.timers = []) (d : Nat) :
    (hideModal (elapse d (showModal w))).timers =
      [⟨w.nextTimer, w.now + 10, none, Task.modalReveal⟩,
       ⟨w.nextTimer + 1, w.now + d + 300, none, Task.modalHidden⟩] := by
  simp [hideModal, elapse, showModal, setTimeout, calculateDelay, World.setStyle,
    World.removeClass, hw]

theorem overlap_after_reveal (env : Env) (w : World) (hw : w.timers = []) (d : Nat)
    (hd : d < 10) :
    (fireTimer env w.nextTimer (hideModal (elapse d (showModal w)))).timers =
      [⟨w.nextTimer + 1, w.now + d + 300, none, Task.modalHidden⟩] ∧
    "show" ∈ (fireTimer env w.nextTimer (hideModal (elapse d (showModal w)))).classList "modal" ∧
    (fireTimer env w.nextTimer (hideModal (elapse d (showModal w)))).calls =
      w.calls ++ [("Modal opened with slide animation", "modal")] ∧
    (fireTimer env w.nextTimer (hideModal (elapse d (showModal w)))).now = w.now + 10 := by
  have hs := overlap_schedule w hw d
  refine ⟨?_, ?_, ?_, ?_⟩
  · simp [fireTimer, hs, runTask, updateResults, World.addClass]
  · simp [fireTimer, hs, runTask, updateResults, World.addClass, mem_classListAdd]
  · simp [fireTimer, hs, runTask, updateResults, World.addClass]
    simp [hideModal, elapse, showModal, setTimeout, calculateDelay, World.setStyle,
      World.removeClass]
  · simp [fireTimer, hs, runTask, updateResults, World.addClass]
    simp [hideModal, elapse, showModal, setTimeout, calculateDelay, World.setStyle,
      World.removeClass]
    omega

theorem fire_modalHidden (env : Env) (w : World) (id due : Nat)
    (hw : w.timers = [⟨id, due, none, Task.modalHidden⟩]) :
    (fireTimer env id w).timers = [] ∧
    (fireTimer env id w).classList = w.classList ∧
    (fireTimer env id w).style "modal" "display" = "none" ∧
    (fireTimer env id w).calls = w.calls ++ [("Modal closed", "modal")] := by
  refine ⟨?_, ?_, ?_, ?_⟩ <;>
    simp [fireTimer, hw, runTask, updateResults, World.setStyle]

theorem fire_modalReveal (env : Env) (w : World) (id due : Nat)
    (hw : w.timers = [⟨id, due, none, Task.modalReveal⟩]) :
    (fireTimer env id w).timers = [] ∧
    "show" ∈ (fireTimer env id w).classList "modal" ∧
    (fireTimer env id w).style = w.style ∧
    (fireTimer env id w).calls = w.calls ++ [("Modal opened with slide animation", "modal")] ∧
    (fireTimer env id w).nextTimer = w.nextTimer ∧
    w.now ≤ (fireTimer env id w).now := by
  refine ⟨?_, ?_, ?_, ?_, ?_, ?_⟩ <;>
    simp [fireTimer, hw, runTask, updateResults, World.addClass, mem_classListAdd]

theorem hideModal_idle (w : World) (hw : w.timers = []) :
    (hideModal w).timers = [⟨w.nextTimer, w.now + 300, none, Task.modalHidden⟩] ∧
    "show" ∉ (hideModal w).classList "modal" ∧
    (hideModal w).calls = w.calls := by
  refine ⟨?_, ?_, ?_⟩ <;>
    simp [hideModal, setTimeout, calculateDelay, World.removeClass, hw,
      not_mem_classListRemove]

/-- C10: show and hide of the modal are not guarded against each other. With
no other timer pending, if `hideModal` is called less than 10 ms after
`showModal`, the reveal timeout runs after `hideModal` removed the class, and
once both timeouts have run the modal has display `none` and still carries
`show`. If `hideModal` is called after the reveal timeout has run, the modal
ends with display `none` and without `show`. -/
theorem modal_show_hide_unguarded (env : Env) (w : World) (hw : w.timers = []) :
    (∀ d : Nat, d < 10 → ∀ fuel : Nat, 2 ≤ fuel →
      "show" ∉ (hideModal (elapse d (showModal w))).classList "modal" ∧
      earliest (hideModal (elapse d (showModal w))).timers =
        some ⟨w.nextTimer, w.now + 10, none, Task.modalReveal⟩ ∧
      (runTimers env fuel (hideModal (elapse d (showModal w)))).timers = [] ∧
      (runTimers env fuel (hideModal (elapse d (showModal w)))).style "modal" "display"
        = "none" ∧
      "show" ∈ (runTimers env fuel (hideModal (elapse d (showModal w)))).classList "modal" ∧
      (runTimers env fuel (hideModal (elapse d (showModal w)))).calls =
        w.calls ++ [("Modal opened with slide animation", "modal"), ("Modal closed", "modal")]) ∧
    (∀ d fuel1 fuel2 : Nat, 1 ≤ fuel1 → 1 ≤ fuel2 →
      (runTimers env fuel1 (showModal w)).timers = [] ∧
      "show" ∈ (runTimers env fuel1 (showModal w)).classList "modal" ∧
      (runTimers env fuel2
        (hideModal (elapse d (runTimers env fuel1 (showModal w))))).timers = [] ∧
      (runTimers env fuel2
        (hideModal (elapse d (runTimers env fuel1 (showModal w))))).style "modal" "display"
        = "none" ∧
      "show" ∉ (runTimers env fuel2
        (hideModal (elapse d (runTimers env fuel1 (showModal w))))).classList "modal" ∧
      (runTimers env fuel2
        (hideModal (elapse d (runTimers env fuel1 (showModal w))))).calls =
        w.calls ++ [("Modal opened with slide animation", "modal"), ("Modal closed", "modal")])
    := by
  constructor
  · intro d hd fuel hfuel
    obtain ⟨n, rfl⟩ : ∃ n, fuel = n + 1 + 1 := ⟨fuel - 2, by omega⟩
    have hs := overlap_schedule w hw d
    have he1 : earliest (hideModal (elapse d (showModal w))).timers =
        some ⟨w.nextTimer, w.now + 10, none, Task.modalReveal⟩ := by
      rw [hs]
      have : ¬ (w.now + d + 300 < w.now + 10) := by omega
      simp [earliest, this]
    obtain ⟨ht2, hshow, hcalls, -⟩ := overlap_after_reveal env w hw d hd
    have he2 : earliest (fireTimer env w.nextTimer
        (hideModal (elapse d (showModal w)))).timers =
        some ⟨w.nextTimer + 1, w.now + d + 300, none, Task.modalHidden⟩ := by
      rw [ht2]; rfl
    obtain ⟨hf1, hf2, hf3, hf4⟩ := fire_modalHidden env _ _ _ ht2
    have hrun : runTimers env (n + 1 + 1) (hideModal (elapse d (showModal w))) =
        fireTimer env (w.nextTimer + 1)
          (fireTimer env w.nextTimer (hideModal (elapse d (showModal w)))) := by
      rw [runTimers_step env (n + 1) _ _ he1, runTimers_step env n _ _ he2]
      exact runTimers_idle env n _ hf1
    refine ⟨?_, he1, ?_, ?_, ?_, ?_⟩
    · simp [hideModal, setTimeout, calculateDelay, World.removeClass, not_mem_classListRemove]
    · rw [hrun]; exact hf1
    · rw [hrun]; exact hf3
    · rw [hrun, hf2]; exact hshow
    · rw [hrun, hf4, hcalls]; simp
  · intro d fuel1 fuel2 h1 h2
    obtain ⟨n1, rfl⟩ : ∃ n, fuel1 = n + 1 := ⟨fuel1 - 1, by omega⟩
    obtain ⟨n2, rfl⟩ : ∃ n, fuel2 = n + 1 := ⟨fuel2 - 1, by omega⟩
    have hs : (showModal w).timers = [⟨w.nextTimer, w.now + 10, none, Task.modalReveal⟩] := by
      simp [showModal, setTimeout, World.setStyle, hw]
    have he1 : earliest (showModal w).timers =
        some ⟨w.nextTimer, w.now + 10, none, Task.modalReveal⟩ := by rw [hs]; rfl
    obtain ⟨hr1, hr2, hr3, hr4, -, -⟩ := fire_modalReveal env _ _ _ hs
    have hrun1 : runTimers env (n1 + 1) (showModal w) =
        fireTimer env w.nextTimer (showModal w) := by
      rw [runTimers_step env n1 _ _ he1]
      exact runTimers_idle env n1 _ hr1
    rw [hrun1]
    have hidle : (elapse d (fireTimer env w.nextTimer (showModal w))).timers = [] := hr1
    obtain ⟨hh1, hh2, hh3⟩ := hideModal_idle _ hidle
    have he2 : earliest (hideModal (elapse d (fireTimer env w.nextTimer (showModal w)))).timers
        = some ⟨(elapse d (fireTimer env w.nextTimer (showModal w))).nextTimer,
            (elapse d (fireTimer env w.nextTimer (showModal w))).now + 300, none,
            Task.modalHidden⟩ := by rw [hh1]; rfl
    obtain ⟨hf1, hf2, hf3, hf4⟩ := fire_modalHidden env _ _ _ hh1
    have hrun2 : runTimers env (n2 + 1)
        (hideModal (elapse d (fireTimer env w.nextTimer (showModal w)))) =
        fireTimer env (elapse d (fireTimer env w.nextTimer (showModal w))).nextTimer
          (hideModal (elapse d (fireTimer env w.nextTimer (showModal w)))) := by
      rw [runTimers_step env n2 _ _ he2]
      exact runTimers_idle env n2 _ hf1
    refine ⟨hr1, hr2, ?_, ?_, ?_, ?_⟩
    · rw [hrun2]; exact hf1
    · rw [hrun2]; exact hf3
    · rw [hrun2, hf2]; exact hh2
    · rw [hrun2, hf4, hh3]
      show (fireTimer env w.nextTimer (showModal w)).calls ++ _ = _
      rw [hr4]
      simp [showModal, setTimeout, World.setStyle]

theorem modal_show_hide_unguarded_witness :
    (loadScript blankPage).timers = [] ∧
    (runTimers plainEnv 5
      (hideModal (elapse 3 (showModal (loadScript blankPage))))).style "modal" "display"
      = "none" ∧
    "show" ∈ (runTimers plainEnv 5
      (hideModal (elapse 3 (showModal (loadScript blankPage))))).classList "modal" := by
  have h := (modal_show_hide_unguarded plainEnv (loadScript blankPage) rfl).1 3 (by decide) 5
    (by decide)
  exact ⟨rfl, h.2.2.2.1, h.2.2.2.2.1⟩

end Script
